import Mathlib

/-!
Verification of the asynchronous widget-loading scheduler
(`UUINavAsyncWidgetManager`, Source/UINavigation/Private/UINavAsyncWidgetManager.cpp)
against its natural-language specification.

The C++ manager is shallowly embedded as pure Lean functions over an explicit
`ManagerState`.  External collaborators (the streamable loader, the view
factory reached through `UINavPC->GoToWidget`, the world/timer context) are
modelled by an `Env` record of oracles supplied to each operation.  Callback
delegates are modelled by small enumerations recording how they were bound,
and the observable callback invocations are collected in a `List Event`
returned alongside the updated state.

The mutually recursive pair `ProcessNextRequest` / `StartLoadingWidget`
terminates in the source because every recursive step consumes one element of
the pending queue; it is embedded as a single fuelled function `SchedStep`
(structurally recursive on the fuel, hence kernel-evaluable) whose entry
points supply fuel `2*|pending|+1` resp. `2*|pending|+2`, which is enough for
the deepest possible call chain.
-/

/-- Model of `FGuid`; `0` plays the role of the invalid `FGuid()`. -/
abbrev Guid := Nat

/-- Model of a resolved `UClass*` (a `TSubclassOf<UUINavWidget>` value). -/
abbrev ClassId := Nat

/-- Model of `TSoftClassPtr<UUINavWidget>`: an opaque asset path plus whether
the soft pointer is null (`IsNull()`).  Whether it is currently loaded
(`IsValid()`) is time-dependent and supplied by the environment. -/
structure WidgetRef where
  path : Nat
  isNull : Bool
deriving DecidableEq

/-- Model of a created `UUINavWidget*` instance; `cls` is `GetClass()`. -/
structure Widget where
  cls : ClassId
deriving DecidableEq

/-- How the `OnLoadCompleted` delegate of a request is bound: unbound, bound
to a caller-supplied delegate, or bound to the preload lambda of
`PreloadWidgetClass` (which caches the class and discards the instance). -/
inductive CompletedCb where
  | unbound
  | user
  | preloadCache (ref : WidgetRef)
deriving DecidableEq

/-- How the `OnLoadFailed` delegate of a request is bound: unbound, bound to a
caller-supplied delegate, or bound to the log-only preload lambda. -/
inductive FailedCb where
  | unbound
  | user
  | preloadLog
deriving DecidableEq

/-- Embedding of `FAsyncWidgetLoadRequest`. -/
structure FAsyncWidgetLoadRequest where
  RequestId : Guid
  WidgetClass : WidgetRef
  bRemoveParent : Bool
  bDestroyParent : Bool
  ZOrder : Int
  OnLoadCompleted : CompletedCb
  OnLoadFailed : FailedCb
  RequestTime : Nat
  bCancelled : Bool
  Priority : Int
deriving DecidableEq

/-- Embedding of `FAsyncWidgetLoadRequest::operator<`: higher priority first,
earlier request time breaking ties. -/
def reqLt (a b : FAsyncWidgetLoadRequest) : Bool :=
  if a.Priority ≠ b.Priority then decide (b.Priority < a.Priority)
  else decide (a.RequestTime < b.RequestTime)

/-- The non-strict order used to model `TArray::Sort` on the pending queue:
`a` may come before `b` iff `b` is not strictly before `a`. -/
def pendingOrder (a b : FAsyncWidgetLoadRequest) : Prop :=
  reqLt b a = false

instance : DecidableRel pendingOrder := fun a b =>
  inferInstanceAs (Decidable (reqLt b a = false))

instance : IsTotal FAsyncWidgetLoadRequest pendingOrder := by
  constructor
  intro a b
  unfold pendingOrder reqLt
  split_ifs
  all_goals simp
  all_goals omega

instance : IsTrans FAsyncWidgetLoadRequest pendingOrder := by
  constructor
  intro a b c hab hbc
  unfold pendingOrder reqLt at *
  split_ifs at *
  all_goals simp_all
  all_goals omega

/-- Observable callback invocations and loader interactions. -/
inductive Event where
  | onCompleted (id : Guid)
  | onFailed (id : Guid) (msg : String)
  | startedAsyncLoad (id : Guid)
deriving DecidableEq

/-- The request id an event concerns. -/
def Event.id : Event → Guid
  | .onCompleted i => i
  | .onFailed i _ => i
  | .startedAsyncLoad i => i

/-- Environment of external collaborators, sampled at the moment an
operation runs: world/timer validity, presence of a `UUINavPCComponent`,
the behaviour of `GoToWidget`, whether `RequestAsyncLoad` yields a valid
handle, the result of `TSoftClassPtr::Get()` once a load delivered, and
`TSoftClassPtr::IsValid()`. -/
structure Env where
  worldValid : Bool
  hasUINavPC : Bool
  goToWidget : ClassId → FAsyncWidgetLoadRequest → Option Widget
  streamHandleValid : WidgetRef → Bool
  loadedGet : WidgetRef → Option ClassId
  refValid : WidgetRef → Bool

/-- The manager's mutable state.  `InFlight` models the callbacks registered
with (and not yet cancelled in) the `FStreamableManager`: delivery of an
asynchronous completion takes the captured request value from here. -/
structure ManagerState where
  ActiveRequests : List FAsyncWidgetLoadRequest
  PendingRequests : List FAsyncWidgetLoadRequest
  CancelledRequestIds : List Guid
  ActiveHandles : List Guid
  TimeoutHandles : List Guid
  InFlight : List FAsyncWidgetLoadRequest
  MaxConcurrentLoads : Int
  LoadTimeoutSeconds : Nat
  TotalRequestCount : Nat
  CompletedRequestCount : Nat
  FailedRequestCount : Nat
  CancelledRequestCount : Nat
  WidgetClassCache : List (WidgetRef × ClassId)
deriving DecidableEq

/-- The freshly constructed manager (constructor defaults). -/
def initialState : ManagerState where
  ActiveRequests := []
  PendingRequests := []
  CancelledRequestIds := []
  ActiveHandles := []
  TimeoutHandles := []
  InFlight := []
  MaxConcurrentLoads := 3
  LoadTimeoutSeconds := 30
  TotalRequestCount := 0
  CompletedRequestCount := 0
  FailedRequestCount := 0
  CancelledRequestCount := 0
  WidgetClassCache := []

/-- Ids of the requests currently in the active set. -/
def activeIds (s : ManagerState) : List Guid :=
  s.ActiveRequests.map (·.RequestId)

/-- Ids of the requests currently in the pending queue. -/
def pendingIds (s : ManagerState) : List Guid :=
  s.PendingRequests.map (·.RequestId)

/-- `TMap::Find` on the widget-class cache. -/
def cacheFind (c : List (WidgetRef × ClassId)) (ref : WidgetRef) : Option ClassId :=
  match c.find? (fun p => decide (p.1 = ref)) with
  | some p => some p.2
  | none => none

/-- `TMap::Add` on the widget-class cache (replaces an existing key). -/
def cacheAdd (c : List (WidgetRef × ClassId)) (ref : WidgetRef) (cls : ClassId) :
    List (WidgetRef × ClassId) :=
  c.filter (fun p => !decide (p.1 = ref)) ++ [(ref, cls)]

/-- `TSet::Add` on the cancelled-id set (insertion-ordered, no duplicates). -/
def idSetAdd (l : List Guid) (g : Guid) : List Guid :=
  if g ∈ l then l else l ++ [g]

/-- The `for`+`break` pattern used to drop a request from `ActiveRequests`:
remove the first element with the given id. -/
def removeFirstReq : List FAsyncWidgetLoadRequest → Guid → List FAsyncWidgetLoadRequest
  | [], _ => []
  | r :: rs, g => if r.RequestId = g then rs else r :: removeFirstReq rs g

/-- Embedding of `AddToWidgetClassCache`: no-op unless the soft pointer is
currently valid and the loaded class is non-null. -/
def AddToWidgetClassCache (env : Env) (s : ManagerState) (softClass : WidgetRef) :
    Option ClassId → ManagerState
  | none => s
  | some cls =>
    if env.refValid softClass then
      { s with WidgetClassCache := cacheAdd s.WidgetClassCache softClass cls }
    else s

/-- Embedding of `GetFromWidgetClassCache` (no validity check in the source). -/
def GetFromWidgetClassCache (s : ManagerState) (softClass : WidgetRef) : Option ClassId :=
  cacheFind s.WidgetClassCache softClass

/-- Embedding of `IsWidgetClassCached`: false for a currently-invalid soft
pointer, otherwise a cache lookup. -/
def IsWidgetClassCached (env : Env) (s : ManagerState) (ref : WidgetRef) : Bool :=
  if !env.refValid ref then false
  else (cacheFind s.WidgetClassCache ref).isSome

/-- Embedding of `CreateAndSetupWidget`: null class, invalid world or missing
`UUINavPCComponent` yield null; otherwise the result of `GoToWidget`. -/
def CreateAndSetupWidget (env : Env) (widgetClass : Option ClassId)
    (req : FAsyncWidgetLoadRequest) : Option Widget :=
  match widgetClass with
  | none => none
  | some cls =>
    if env.worldValid && env.hasUINavPC then env.goToWidget cls req else none

/-- Executing a bound `OnLoadCompleted` delegate.  The preload lambda of
`PreloadWidgetClass` additionally stores the created widget's class in the
cache and discards the instance (`RemoveFromParent`), which is why it may
mutate the state. -/
def invokeCompleted (env : Env) (s : ManagerState) (cb : CompletedCb) (id : Guid)
    (w : Widget) : ManagerState × List Event :=
  match cb with
  | .unbound => (s, [])
  | .user => (s, [.onCompleted id])
  | .preloadCache ref => (AddToWidgetClassCache env s ref (some w.cls), [.onCompleted id])

/-- Executing a bound `OnLoadFailed` delegate (never mutates the state). -/
def invokeFailed (cb : FailedCb) (id : Guid) (msg : String) : List Event :=
  match cb with
  | .unbound => []
  | .user => [.onFailed id msg]
  | .preloadLog => [.onFailed id msg]

/-- The synchronous cache-hit completion inside `StartLoadingWidget`: run
the view factory on the cached class, fire the matching delegate and bump
the matching counter. -/
def completeFromCache (env : Env) (s : ManagerState) (req : FAsyncWidgetLoadRequest)
    (cached : ClassId) : ManagerState × List Event :=
  match CreateAndSetupWidget env (some cached) req with
  | some w =>
    let r := invokeCompleted env s req.OnLoadCompleted req.RequestId w
    ({ r.1 with CompletedRequestCount := r.1.CompletedRequestCount + 1 }, r.2)
  | none =>
    ({ s with FailedRequestCount := s.FailedRequestCount + 1 },
     invokeFailed req.OnLoadFailed req.RequestId
       "Failed to create widget from cached class")

/-- Arming the per-request timeout timer in `StartLoadingWidget` (only
possible with a valid world context). -/
def armTimer (env : Env) (s : ManagerState) (id : Guid) : ManagerState :=
  if env.worldValid then { s with TimeoutHandles := s.TimeoutHandles ++ [id] } else s

/-- Dropping a request from the active set (the `for`+`break` removal). -/
def dropActive (s : ManagerState) (id : Guid) : ManagerState :=
  { s with ActiveRequests := removeFirstReq s.ActiveRequests id }

/-- The skip/admission state changes of `ProcessNextRequest`: pop the head
of the pending queue, and for an admission also append it to the active
set. -/
def popPending (s : ManagerState) (rest : List FAsyncWidgetLoadRequest) : ManagerState :=
  { s with PendingRequests := rest }

/-- State right after `ProcessNextRequest` admits `next` into the active
set (before `StartLoadingWidget` runs). -/
def admitReq (s : ManagerState) (next : FAsyncWidgetLoadRequest)
    (rest : List FAsyncWidgetLoadRequest) : ManagerState :=
  { s with PendingRequests := rest, ActiveRequests := s.ActiveRequests ++ [next] }

/-- Fuelled embedding of the mutually recursive pair
`ProcessNextRequest` (mode `none`) / `StartLoadingWidget req` (mode
`some req`).  The fuel only bounds the recursion depth; the entry-point
wrappers below supply enough fuel that the `0` case is never reached. -/
def SchedStep (env : Env) : Nat → ManagerState → Option FAsyncWidgetLoadRequest →
    ManagerState × List Event
  | 0, s, _ => (s, [])
  | fuel + 1, s, none =>
    match s.PendingRequests with
    | [] => (s, [])
    | next :: rest =>
      if (s.ActiveRequests.length : Int) < s.MaxConcurrentLoads then
        if next.bCancelled || decide (next.RequestId ∈ s.CancelledRequestIds) then
          SchedStep env fuel (popPending s rest) none
        else
          SchedStep env fuel (admitReq s next rest) (some next)
      else (s, [])
  | fuel + 1, s, some req =>
    match GetFromWidgetClassCache s req.WidgetClass with
    | some cached =>
      let outcome := completeFromCache env s req cached
      let r2 := SchedStep env fuel (dropActive outcome.1 req.RequestId) none
      (r2.1, outcome.2 ++ r2.2)
    | none =>
      let s1 := armTimer env s req.RequestId
      if env.streamHandleValid req.WidgetClass then
        ({ s1 with ActiveHandles := s1.ActiveHandles ++ [req.RequestId],
                   InFlight := s1.InFlight ++ [req] },
         [.startedAsyncLoad req.RequestId])
      else
        let evs := invokeFailed req.OnLoadFailed req.RequestId
          "Failed to create streamable handle"
        let s2 := { dropActive s1 req.RequestId with
          FailedRequestCount := s1.FailedRequestCount + 1 }
        let r2 := SchedStep env fuel s2 none
        (r2.1, Event.startedAsyncLoad req.RequestId :: evs ++ r2.2)

/-- Embedding of `ProcessNextRequest`. -/
def ProcessNextRequest (env : Env) (s : ManagerState) : ManagerState × List Event :=
  SchedStep env (2 * s.PendingRequests.length + 1) s none

/-- Embedding of `StartLoadingWidget`. -/
def StartLoadingWidget (env : Env) (s : ManagerState) (req : FAsyncWidgetLoadRequest) :
    ManagerState × List Event :=
  SchedStep env (2 * s.PendingRequests.length + 2) s (some req)

/-- Embedding of `LoadWidgetAsync` (`submit`).  `newId` models the fresh
`FGuid::NewGuid()` and `now` the `FPlatformTime::Seconds()` of the request
constructor.  Returns the final state, the callbacks fired synchronously
during the call, and the returned id (`0` = the invalid `FGuid()`). -/
def LoadWidgetAsync (env : Env) (s : ManagerState) (widgetClass : WidgetRef)
    (onLoadCompleted : CompletedCb) (onLoadFailed : FailedCb)
    (bRemoveParent bDestroyParent : Bool) (zOrder priority : Int)
    (newId : Guid) (now : Nat) : ManagerState × List Event × Guid :=
  if widgetClass.isNull then
    (s, invokeFailed onLoadFailed 0 "Invalid widget class provided", 0)
  else
    let newRequest : FAsyncWidgetLoadRequest :=
      { RequestId := newId, WidgetClass := widgetClass,
        bRemoveParent := bRemoveParent, bDestroyParent := bDestroyParent,
        ZOrder := zOrder, OnLoadCompleted := onLoadCompleted,
        OnLoadFailed := onLoadFailed, RequestTime := now,
        bCancelled := false, Priority := priority }
    let s1 := { s with TotalRequestCount := s.TotalRequestCount + 1 }
    if (s1.ActiveRequests.length : Int) < s1.MaxConcurrentLoads then
      let s2 := { s1 with ActiveRequests := s1.ActiveRequests ++ [newRequest] }
      let r := StartLoadingWidget env s2 newRequest
      (r.1, r.2, newId)
    else
      ({ s1 with PendingRequests :=
          List.insertionSort pendingOrder (s1.PendingRequests ++ [newRequest]) },
       [], newId)

/-- Cancelling the streamable handle of a request, when one exists: the
handle map entry is dropped and the registered completion callback will
never run. -/
def cancelHandle (s : ManagerState) (requestId : Guid) : ManagerState :=
  if requestId ∈ s.ActiveHandles then
    { s with ActiveHandles := s.ActiveHandles.filter (fun g => !decide (g = requestId)),
             InFlight := s.InFlight.filter (fun r => !decide (r.RequestId = requestId)) }
  else s

/-- Clearing the timeout timer of a request. -/
def clearTimer (s : ManagerState) (requestId : Guid) : ManagerState :=
  { s with TimeoutHandles := s.TimeoutHandles.filter (fun g => !decide (g = requestId)) }

/-- Embedding of `CancelLoadRequest`.  Returns the state, synchronously fired
callbacks (from admitting the next pending request) and the `bool` result. -/
def CancelLoadRequest (env : Env) (s : ManagerState) (requestId : Guid) :
    ManagerState × List Event × Bool :=
  if requestId = 0 then (s, [], false)
  else
    match s.ActiveRequests.find? (fun r => decide (r.RequestId = requestId)) with
    | some _ =>
      let s2 := clearTimer (cancelHandle s requestId) requestId
      let s3 := { s2 with
        CancelledRequestIds := idSetAdd s2.CancelledRequestIds requestId,
        ActiveRequests := removeFirstReq s2.ActiveRequests requestId,
        CancelledRequestCount := s2.CancelledRequestCount + 1 }
      let r := ProcessNextRequest env s3
      (r.1, r.2, true)
    | none =>
      match s.PendingRequests.find? (fun r => decide (r.RequestId = requestId)) with
      | some _ =>
        ({ s with
            CancelledRequestIds := idSetAdd s.CancelledRequestIds requestId,
            PendingRequests := removeFirstReq s.PendingRequests requestId,
            CancelledRequestCount := s.CancelledRequestCount + 1 },
         [], true)
      | none => (s, [], false)

/-- Embedding of `CancelAllLoadRequests`: record every active and pending id
as cancelled, cancel the loader handles of active requests that have one,
bump the cancelled counter by the combined count and empty all containers. -/
def CancelAllLoadRequests (s : ManagerState) : ManagerState :=
  let ids1 := s.ActiveRequests.foldl (fun acc r => idSetAdd acc r.RequestId)
    s.CancelledRequestIds
  let ids2 := s.PendingRequests.foldl (fun acc r => idSetAdd acc r.RequestId) ids1
  { s with
    CancelledRequestIds := ids2,
    InFlight := s.InFlight.filter (fun r =>
      !(decide (r.RequestId ∈ activeIds s) && decide (r.RequestId ∈ s.ActiveHandles))),
    CancelledRequestCount :=
      s.CancelledRequestCount + s.ActiveRequests.length + s.PendingRequests.length,
    ActiveRequests := [], PendingRequests := [],
    ActiveHandles := [], TimeoutHandles := [] }

/-- Fuelled embedding of the `while` loop in `SetMaxConcurrentLoads`; each
iteration of `ProcessNextRequest` under the loop condition strictly shrinks
the pending queue, so fuel `|pending|` is enough. -/
def drainLoop (env : Env) : Nat → ManagerState → ManagerState × List Event
  | 0, s => (s, [])
  | fuel + 1, s =>
    if (s.ActiveRequests.length : Int) < s.MaxConcurrentLoads ∧
        s.PendingRequests ≠ [] then
      let r1 := ProcessNextRequest env s
      let r2 := drainLoop env fuel r1.1
      (r2.1, r1.2 ++ r2.2)
    else (s, [])

/-- Embedding of `SetMaxConcurrentLoads`: clamp to at least 1, then keep
admitting pending requests while slots are free. -/
def SetMaxConcurrentLoads (env : Env) (s : ManagerState) (n : Int) :
    ManagerState × List Event :=
  let s1 := { s with MaxConcurrentLoads := max 1 n }
  drainLoop env s1.PendingRequests.length s1

/-- Embedding of `SetLoadTimeout` (clamped to at least 1 second). -/
def SetLoadTimeout (s : ManagerState) (t : Nat) : ManagerState :=
  { s with LoadTimeoutSeconds := max 1 t }

/-- Result record of `GetRequestStatus` (function result plus the three
`bool` out-parameters). -/
structure RequestStatus where
  found : Bool
  bIsActive : Bool
  bIsPending : Bool
  bIsCancelled : Bool
deriving DecidableEq

/-- Embedding of `GetRequestStatus`: a cancelled id short-circuits before the
active/pending scans. -/
def GetRequestStatus (s : ManagerState) (requestId : Guid) : RequestStatus :=
  if requestId ∈ s.CancelledRequestIds then
    { found := true, bIsActive := false, bIsPending := false, bIsCancelled := true }
  else if requestId ∈ activeIds s then
    { found := true, bIsActive := true, bIsPending := false, bIsCancelled := false }
  else if requestId ∈ pendingIds s then
    { found := true, bIsActive := false, bIsPending := true, bIsCancelled := false }
  else
    { found := false, bIsActive := false, bIsPending := false, bIsCancelled := false }

/-- Dropping the streamable-handle map entry of a request (without the
cancel call; used when the load has delivered). -/
def dropHandle (s : ManagerState) (requestId : Guid) : ManagerState :=
  { s with ActiveHandles := s.ActiveHandles.filter (fun g => !decide (g = requestId)) }

/-- Outcome computation of `OnWidgetClassLoaded` for an uncancelled request:
load-failure, instantiation failure or success with cache population. -/
def owclOutcome (env : Env) (s1 : ManagerState) (req : FAsyncWidgetLoadRequest) :
    ManagerState × List Event :=
  match env.loadedGet req.WidgetClass with
  | none =>
    ({ s1 with FailedRequestCount := s1.FailedRequestCount + 1 },
     invokeFailed req.OnLoadFailed req.RequestId "Failed to load widget class")
  | some loadedClass =>
    let s2 :=
      if IsWidgetClassCached env s1 req.WidgetClass then s1
      else AddToWidgetClassCache env s1 req.WidgetClass (some loadedClass)
    match CreateAndSetupWidget env (some loadedClass) req with
    | some w =>
      let r := invokeCompleted env s2 req.OnLoadCompleted req.RequestId w
      ({ r.1 with CompletedRequestCount := r.1.CompletedRequestCount + 1 }, r.2)
    | none =>
      ({ s2 with FailedRequestCount := s2.FailedRequestCount + 1 },
       invokeFailed req.OnLoadFailed req.RequestId "Failed to create widget instance")

/-- Embedding of `OnWidgetClassLoaded`, the completion callback captured by
`StartLoadingWidget`; `req` is the captured request value. -/
def OnWidgetClassLoaded (env : Env) (s : ManagerState)
    (req : FAsyncWidgetLoadRequest) : ManagerState × List Event :=
  let s1 := clearTimer (dropHandle s req.RequestId) req.RequestId
  if req.bCancelled || decide (req.RequestId ∈ s1.CancelledRequestIds) then
    ProcessNextRequest env (dropActive s1 req.RequestId)
  else
    let outcome := owclOutcome env s1 req
    let r2 := ProcessNextRequest env (dropActive outcome.1 req.RequestId)
    (r2.1, outcome.2 ++ r2.2)

/-- Embedding of `HandleLoadTimeout`: acts on the first active request with
the given id (the loop breaks after one match), cancelling its handle,
firing `OnLoadFailed("Load timeout")`, recording the id as cancelled,
bumping the failed counter and admitting the next pending request. -/
def HandleLoadTimeout (env : Env) (s : ManagerState) (requestId : Guid) :
    ManagerState × List Event :=
  match s.ActiveRequests.find? (fun r => decide (r.RequestId = requestId)) with
  | none => (s, [])
  | some req =>
    let s1 := cancelHandle s requestId
    let evs := invokeFailed req.OnLoadFailed requestId "Load timeout"
    let s2 := { clearTimer s1 requestId with
      CancelledRequestIds := idSetAdd s1.CancelledRequestIds requestId,
      ActiveRequests := removeFirstReq s1.ActiveRequests requestId,
      FailedRequestCount := s1.FailedRequestCount + 1 }
    let r := ProcessNextRequest env s2
    (r.1, evs ++ r.2)

/-- Embedding of `CleanupCompletedRequests`: when more than 100 cancelled ids
are stored, sort them (the source sorts by `FGuid::ToString()`; for the
fixed-width zero-padded hex rendering of a guid that string order coincides
with the numeric order used here) and remove the smallest ones until only
`100 / 2 = 50` remain. -/
def CleanupCompletedRequests (s : ManagerState) : ManagerState :=
  let maxCancelledIds : Nat := 100
  if s.CancelledRequestIds.length > maxCancelledIds then
    let cancelledArray := List.insertionSort (fun a b => a ≤ b) s.CancelledRequestIds
    let toRemove := s.CancelledRequestIds.length - maxCancelledIds / 2
    let removed := cancelledArray.take toRemove
    { s with CancelledRequestIds :=
        s.CancelledRequestIds.filter (fun g => !decide (g ∈ removed)) }
  else s

/-- Embedding of `PreloadWidgetClass`: rejects a currently-invalid soft
pointer, short-circuits when already cached, otherwise submits a request
whose completed delegate is the cache-and-discard lambda and whose failed
delegate only logs, through the same admission path as `LoadWidgetAsync`. -/
def PreloadWidgetClass (env : Env) (s : ManagerState) (widgetClass : WidgetRef)
    (priority : Int) (newId : Guid) (now : Nat) : ManagerState × List Event × Guid :=
  if !env.refValid widgetClass then (s, [], 0)
  else if IsWidgetClassCached env s widgetClass then (s, [], 0)
  else
    let preloadRequest : FAsyncWidgetLoadRequest :=
      { RequestId := newId, WidgetClass := widgetClass,
        bRemoveParent := false, bDestroyParent := false, ZOrder := 0,
        OnLoadCompleted := .preloadCache widgetClass, OnLoadFailed := .preloadLog,
        RequestTime := now, bCancelled := false, Priority := priority }
    let s1 := { s with TotalRequestCount := s.TotalRequestCount + 1 }
    if (s1.ActiveRequests.length : Int) < s1.MaxConcurrentLoads then
      let s2 := { s1 with ActiveRequests := s1.ActiveRequests ++ [preloadRequest] }
      let r := StartLoadingWidget env s2 preloadRequest
      (r.1, r.2, newId)
    else
      ({ s1 with PendingRequests :=
          List.insertionSort pendingOrder (s1.PendingRequests ++ [preloadRequest]) },
       [], newId)

/-- Embedding of `ClearCache` restricted to the manager state: the widget
class cache is emptied (handle cancellation and the loader flush touch only
external collaborators and the never-populated `CacheHandles` array). -/
def ClearCache (s : ManagerState) : ManagerState :=
  { s with WidgetClassCache := [] }

/-- One externally triggered operation on the manager.  `submit`/`preload`
carry the fresh guid and timestamp their request constructor would draw;
`deliver` is the streamable manager invoking a registered completion
callback; `fireTimeout` is a timeout timer firing (the handler itself is
defensive, acting only on a matching active request). -/
inductive MgrAction where
  | submit (env : Env) (ref : WidgetRef) (cbC : CompletedCb) (cbF : FailedCb)
      (bRemoveParent bDestroyParent : Bool) (zOrder priority : Int)
      (newId : Guid) (now : Nat)
  | cancel (env : Env) (id : Guid)
  | cancelAll
  | setMaxConcurrent (env : Env) (n : Int)
  | setTimeout (t : Nat)
  | deliver (env : Env) (id : Guid)
  | fireTimeout (env : Env) (id : Guid)
  | cleanup
  | preload (env : Env) (ref : WidgetRef) (priority : Int) (newId : Guid) (now : Nat)
  | clearCache

/-- State transition performed by one action. -/
def applyAction (s : ManagerState) : MgrAction → ManagerState
  | .submit env ref cbC cbF rp dp z p newId now =>
    (LoadWidgetAsync env s ref cbC cbF rp dp z p newId now).1
  | .cancel env id => (CancelLoadRequest env s id).1
  | .cancelAll => CancelAllLoadRequests s
  | .setMaxConcurrent env n => (SetMaxConcurrentLoads env s n).1
  | .setTimeout t => SetLoadTimeout s t
  | .deliver env id =>
    match s.InFlight.find? (fun r => decide (r.RequestId = id)) with
    | some req =>
      (OnWidgetClassLoaded env
        { s with InFlight := s.InFlight.filter (fun r => !decide (r.RequestId = id)) }
        req).1
    | none => s
  | .fireTimeout env id => (HandleLoadTimeout env s id).1
  | .cleanup => CleanupCompletedRequests s
  | .preload env ref p newId now => (PreloadWidgetClass env s ref p newId now).1
  | .clearCache => ClearCache s

/-- States reachable from the freshly constructed manager. -/
inductive Reach : ManagerState → Prop where
  | init : Reach initialState
  | step (s : ManagerState) (a : MgrAction) : Reach s → Reach (applyAction s a)

/-- An action that never lowers the concurrency limit below the current
number of active requests (every action except such a shrinking
`SetMaxConcurrentLoads`). -/
def shrinkSafe (s : ManagerState) : MgrAction → Prop
  | .setMaxConcurrent _ n => (s.ActiveRequests.length : Int) ≤ max 1 n
  | _ => True

/-- States reachable without ever lowering the concurrency limit below the
number of currently active requests. -/
inductive ReachSafe : ManagerState → Prop where
  | init : ReachSafe initialState
  | step (s : ManagerState) (a : MgrAction) :
      ReachSafe s → shrinkSafe s a → ReachSafe (applyAction s a)

-- ===== further definitions =====

/-- The fuel the entry-point wrappers hand to `SchedStep`. -/
def schedFuel (s : ManagerState) : Option FAsyncWidgetLoadRequest → Nat
  | none => 2 * s.PendingRequests.length + 1
  | some _ => 2 * s.PendingRequests.length + 2

/-- A freed slot was not lost: afterwards the pending queue is empty, or all
slots are busy again, or some formerly pending request is now active. -/
def admitsNext (s t : ManagerState) : Prop :=
  t.PendingRequests = [] ∨ t.MaxConcurrentLoads ≤ (t.ActiveRequests.length : Int) ∨
    ∃ r, r ∈ s.PendingRequests ∧ r ∈ t.ActiveRequests

/-- Agreement on the state components that the scheduler recursion never
touches: concurrency limit, total/cancelled counters, the cancelled-id set
and the timeout configuration. -/
def framePres (s t : ManagerState) : Prop :=
  t.MaxConcurrentLoads = s.MaxConcurrentLoads ∧
  t.TotalRequestCount = s.TotalRequestCount ∧
  t.CancelledRequestCount = s.CancelledRequestCount ∧
  t.CancelledRequestIds = s.CancelledRequestIds ∧
  t.LoadTimeoutSeconds = s.LoadTimeoutSeconds


/-- Agreement on every state component other than the widget-class cache
and the completed/failed counters ("only a completion outcome happened"). -/
def quietPres (s t : ManagerState) : Prop :=
  t.ActiveRequests = s.ActiveRequests ∧ t.PendingRequests = s.PendingRequests ∧
  t.CancelledRequestIds = s.CancelledRequestIds ∧ t.ActiveHandles = s.ActiveHandles ∧
  t.TimeoutHandles = s.TimeoutHandles ∧ t.InFlight = s.InFlight ∧
  t.MaxConcurrentLoads = s.MaxConcurrentLoads ∧ t.LoadTimeoutSeconds = s.LoadTimeoutSeconds ∧
  t.TotalRequestCount = s.TotalRequestCount ∧ t.CancelledRequestCount = s.CancelledRequestCount

/-- A benign concrete environment: valid world, a player controller with
the component present, a factory that yields a widget of the given class,
valid streamable handles, loads that resolve to the asset path, and soft
pointers that are valid. -/
def envA : Env where
  worldValid := true
  hasUINavPC := true
  goToWidget := fun cls _ => some ⟨cls⟩
  streamHandleValid := fun _ => true
  loadedGet := fun ref => some ref.path
  refValid := fun _ => true

/-- Like `envA` but every soft pointer reports `IsValid() = false` (the
class is not currently loaded). -/
def envB : Env :=
  { envA with refValid := fun _ => false }

/-- Sample non-null widget references and the null reference. -/
def refA : WidgetRef := ⟨1, false⟩

def refB : WidgetRef := ⟨2, false⟩

def refC : WidgetRef := ⟨3, false⟩

def refNull : WidgetRef := ⟨0, true⟩

/-- A sample active request used in concrete scenarios. -/
def reqT : FAsyncWidgetLoadRequest where
  RequestId := 5
  WidgetClass := refA
  bRemoveParent := false
  bDestroyParent := false
  ZOrder := 0
  OnLoadCompleted := .user
  OnLoadFailed := .user
  RequestTime := 0
  bCancelled := false
  Priority := 0

/-- A manager with a single active request. -/
def stateT : ManagerState := { initialState with ActiveRequests := [reqT] }

/-- An already-cancelled captured request. -/
def reqC5 : FAsyncWidgetLoadRequest := { reqT with RequestId := 6, bCancelled := true }

/-- A manager holding the cancelled request in its active set. -/
def stateC5 : ManagerState := { initialState with ActiveRequests := [reqC5] }

/-- Reachable scenario state for the cache-hit-while-full counterexample:
limit lowered to 1, `refA` resolved once (populating the cache), then a
load of `refB` occupying the only slot. -/
def stateC1 : ManagerState :=
  applyAction (applyAction (applyAction (applyAction initialState
    (.setMaxConcurrent envA 1))
    (.submit envA refA .user .user false false 0 0 11 1))
    (.deliver envA 11))
    (.submit envA refB .user .user false false 0 0 12 2)

/-- Reachable scenario state for the shrinking-limit counterexample: three
concurrent loads admitted under the default limit 3, then the limit is
lowered to 1. -/
def stateC2 : ManagerState :=
  applyAction (applyAction (applyAction (applyAction initialState
    (.submit envA refA .user .user false false 0 0 1 1))
    (.submit envA refB .user .user false false 0 0 2 2))
    (.submit envA refC .user .user false false 0 0 3 3))
    (.setMaxConcurrent envA 1)

/-- Reachable scenario state with three active loads and two queued
requests of priorities 1 and 5. -/
def stateC4 : ManagerState :=
  applyAction (applyAction (applyAction (applyAction (applyAction initialState
    (.submit envA refA .user .user false false 0 0 1 1))
    (.submit envA refB .user .user false false 0 0 2 2))
    (.submit envA refC .user .user false false 0 0 3 3))
    (.submit envA refA .user .user false false 0 1 4 4))
    (.submit envA refA .user .user false false 0 5 5 5)

/-- The queued request of priority 1 in `stateC4`. -/
def reqP4 : FAsyncWidgetLoadRequest where
  RequestId := 4
  WidgetClass := refA
  bRemoveParent := false
  bDestroyParent := false
  ZOrder := 0
  OnLoadCompleted := .user
  OnLoadFailed := .user
  RequestTime := 4
  bCancelled := false
  Priority := 1

/-- The queued request of priority 5 in `stateC4`. -/
def reqP5 : FAsyncWidgetLoadRequest :=
  { reqP4 with RequestId := 5, RequestTime := 5, Priority := 5 }

/-- Reachable scenario state with one active load (for the freed-slot
witness). -/
def stateC7 : ManagerState :=
  applyAction initialState (.submit envA refA .user .user false false 0 0 7 1)

/-- Scenario state for the cancelled-id cleanup: 101 distinct cancelled ids,
recorded oldest first, so the id `100` is the oldest-recorded and `0` the
newest-recorded entry. -/
def stateC8 : ManagerState :=
  { initialState with CancelledRequestIds := (List.range 101).reverse }

/-- The request record the submit path constructs from its arguments (the
field assignments of `LoadWidgetAsync` together with the struct constructor
defaults). -/
def mkRequest (widgetClass : WidgetRef) (cbC : CompletedCb) (cbF : FailedCb)
    (bRemoveParent bDestroyParent : Bool) (zOrder priority : Int)
    (newId : Guid) (now : Nat) : FAsyncWidgetLoadRequest :=
  { RequestId := newId, WidgetClass := widgetClass, bRemoveParent := bRemoveParent,
    bDestroyParent := bDestroyParent, ZOrder := zOrder, OnLoadCompleted := cbC,
    OnLoadFailed := cbF, RequestTime := now, bCancelled := false, Priority := priority }

/-- Reachable scenario state with a populated cache and a free slot: limit
lowered to 1, then a load of `refA` submitted and resolved, caching its
class and emptying the active set. -/
def stateC1b : ManagerState :=
  applyAction (applyAction (applyAction initialState
    (.setMaxConcurrent envA 1))
    (.submit envA refA .user .user false false 0 0 11 1))
    (.deliver envA 11)

-- ===== theorems =====

/-- The pending-queue order, spelled out arithmetically. -/
theorem pendingOrder_iff (a b : FAsyncWidgetLoadRequest) :
    pendingOrder a b ↔
      (b.Priority < a.Priority ∨
        (a.Priority = b.Priority ∧ a.RequestTime ≤ b.RequestTime)) := by
  unfold pendingOrder reqLt
  by_cases h : b.Priority = a.Priority
  all_goals simp [h]
  all_goals omega


/-- Removing the first matching request yields a sublist. -/
theorem removeFirstReq_sublist (l : List FAsyncWidgetLoadRequest) (g : Guid) :
    List.Sublist (removeFirstReq l g) l := by
  induction l with
  | nil => simp [removeFirstReq]
  | cons r rs ih =>
    by_cases h : r.RequestId = g
    · simp only [removeFirstReq, if_pos h]
      exact List.sublist_cons_self r rs
    · simp only [removeFirstReq, if_neg h]
      exact ih.cons₂ r

/-- Removing the first matching request never lengthens the list. -/
theorem removeFirstReq_length (l : List FAsyncWidgetLoadRequest) (g : Guid) :
    (removeFirstReq l g).length ≤ l.length :=
  (removeFirstReq_sublist l g).length_le

/-- Elements surviving `removeFirstReq` come from the original list. -/
theorem removeFirstReq_subset (l : List FAsyncWidgetLoadRequest) (g : Guid) :
    ∀ r ∈ removeFirstReq l g, r ∈ l :=
  fun _ hr => (removeFirstReq_sublist l g).subset hr

/-- If at most one element of the list carries the removed id, none of the
survivors carries it. -/
theorem removeFirstReq_id_gone (l : List FAsyncWidgetLoadRequest) (g : Guid)
    (hcount : l.countP (fun r => decide (r.RequestId = g)) ≤ 1) :
    ∀ r ∈ removeFirstReq l g, r.RequestId ≠ g := by
  induction l with
  | nil => simp [removeFirstReq]
  | cons r rs ih =>
    by_cases h : r.RequestId = g
    · simp only [removeFirstReq, if_pos h]
      intro x hx
      rw [List.countP_cons] at hcount
      simp [h] at hcount
      exact hcount x hx
    · simp only [removeFirstReq, if_neg h]
      intro x hx
      rcases List.mem_cons.mp hx with hx | hx
      · subst hx; exact h
      · exact ih (by simp [List.countP_cons, h] at hcount ⊢; omega) x hx

theorem framePres_refl (s : ManagerState) : framePres s s := by
  simp [framePres]

theorem framePres_trans {s t u : ManagerState} (h1 : framePres s t)
    (h2 : framePres t u) : framePres s u := by
  obtain ⟨a1, a2, a3, a4, a5⟩ := h1
  obtain ⟨b1, b2, b3, b4, b5⟩ := h2
  exact ⟨b1.trans a1, b2.trans a2, b3.trans a3, b4.trans a4, b5.trans a5⟩

/-- Invoking a completed delegate can only touch the widget-class cache. -/
theorem invokeCompleted_proj (env : Env) (s : ManagerState) (cb : CompletedCb)
    (id : Guid) (w : Widget) :
    (invokeCompleted env s cb id w).1.ActiveRequests = s.ActiveRequests ∧
    (invokeCompleted env s cb id w).1.PendingRequests = s.PendingRequests ∧
    (invokeCompleted env s cb id w).1.ActiveHandles = s.ActiveHandles ∧
    (invokeCompleted env s cb id w).1.TimeoutHandles = s.TimeoutHandles ∧
    (invokeCompleted env s cb id w).1.InFlight = s.InFlight ∧
    (invokeCompleted env s cb id w).1.CompletedRequestCount = s.CompletedRequestCount ∧
    (invokeCompleted env s cb id w).1.FailedRequestCount = s.FailedRequestCount ∧
    framePres s (invokeCompleted env s cb id w).1 := by
  cases cb with
  | unbound => simp [invokeCompleted, framePres]
  | user => simp [invokeCompleted, framePres]
  | preloadCache ref =>
    simp only [invokeCompleted, AddToWidgetClassCache]
    split <;> simp [framePres]

/-- Every event produced by a completed delegate names the given id. -/
theorem invokeCompleted_events (env : Env) (s : ManagerState) (cb : CompletedCb)
    (id : Guid) (w : Widget) :
    ∀ e ∈ (invokeCompleted env s cb id w).2, e.id = id := by
  cases cb <;> simp [invokeCompleted, Event.id]

/-- Every event produced by a failed delegate names the given id. -/
theorem invokeFailed_events (cb : FailedCb) (id : Guid) (msg : String) :
    ∀ e ∈ invokeFailed cb id msg, e.id = id := by
  cases cb <;> simp [invokeFailed, Event.id]

/-- Unfolding `SchedStep` at fuel `0`. -/
theorem schedStep_zero (env : Env) (s : ManagerState)
    (o : Option FAsyncWidgetLoadRequest) : SchedStep env 0 s o = (s, []) := rfl

/-- `ProcessNextRequest` with an empty pending queue does nothing. -/
theorem schedStep_none_nil (env : Env) (n : Nat) (s : ManagerState)
    (hp : s.PendingRequests = []) : SchedStep env (n + 1) s none = (s, []) := by
  simp [SchedStep, hp]

/-- `ProcessNextRequest` with all slots busy does nothing. -/
theorem schedStep_none_stop (env : Env) (n : Nat) (s : ManagerState)
    (next : FAsyncWidgetLoadRequest) (rest : List FAsyncWidgetLoadRequest)
    (hp : s.PendingRequests = next :: rest)
    (hlt : ¬ (s.ActiveRequests.length : Int) < s.MaxConcurrentLoads) :
    SchedStep env (n + 1) s none = (s, []) := by
  simp [SchedStep, hp, hlt]

/-- `ProcessNextRequest` pops and skips a cancelled head recursively. -/
theorem schedStep_none_skip (env : Env) (n : Nat) (s : ManagerState)
    (next : FAsyncWidgetLoadRequest) (rest : List FAsyncWidgetLoadRequest)
    (hp : s.PendingRequests = next :: rest)
    (hlt : (s.ActiveRequests.length : Int) < s.MaxConcurrentLoads)
    (hc : (next.bCancelled || decide (next.RequestId ∈ s.CancelledRequestIds)) = true) :
    SchedStep env (n + 1) s none = SchedStep env n (popPending s rest) none := by
  simp [SchedStep, hp, hlt, hc]

/-- `ProcessNextRequest` admits an uncancelled head and starts loading it. -/
theorem schedStep_none_enter (env : Env) (n : Nat) (s : ManagerState)
    (next : FAsyncWidgetLoadRequest) (rest : List FAsyncWidgetLoadRequest)
    (hp : s.PendingRequests = next :: rest)
    (hlt : (s.ActiveRequests.length : Int) < s.MaxConcurrentLoads)
    (hc : (next.bCancelled || decide (next.RequestId ∈ s.CancelledRequestIds)) = false) :
    SchedStep env (n + 1) s none = SchedStep env n (admitReq s next rest) (some next) := by
  simp [SchedStep, hp, hlt, hc]

/-- `StartLoadingWidget` on a cache hit completes synchronously, frees the
slot and continues with `ProcessNextRequest`. -/
theorem schedStep_some_hit (env : Env) (n : Nat) (s : ManagerState)
    (req : FAsyncWidgetLoadRequest) (cached : ClassId)
    (hcache : GetFromWidgetClassCache s req.WidgetClass = some cached) :
    SchedStep env (n + 1) s (some req) =
      ((SchedStep env n (dropActive (completeFromCache env s req cached).1 req.RequestId) none).1,
       (completeFromCache env s req cached).2 ++
         (SchedStep env n (dropActive (completeFromCache env s req cached).1 req.RequestId) none).2) := by
  simp [SchedStep, hcache]

/-- `StartLoadingWidget` on a cache miss with a valid streamable handle arms
the timer, records the handle and the in-flight callback, and returns. -/
theorem schedStep_some_async (env : Env) (n : Nat) (s : ManagerState)
    (req : FAsyncWidgetLoadRequest)
    (hcache : GetFromWidgetClassCache s req.WidgetClass = none)
    (hh : env.streamHandleValid req.WidgetClass = true) :
    SchedStep env (n + 1) s (some req) =
      ({ armTimer env s req.RequestId with
          ActiveHandles := (armTimer env s req.RequestId).ActiveHandles ++ [req.RequestId],
          InFlight := (armTimer env s req.RequestId).InFlight ++ [req] },
       [.startedAsyncLoad req.RequestId]) := by
  simp [SchedStep, hcache, hh]

/-- `StartLoadingWidget` on a cache miss with an invalid streamable handle
reports failure, frees the slot and continues with `ProcessNextRequest`. -/
theorem schedStep_some_nohandle (env : Env) (n : Nat) (s : ManagerState)
    (req : FAsyncWidgetLoadRequest)
    (hcache : GetFromWidgetClassCache s req.WidgetClass = none)
    (hh : env.streamHandleValid req.WidgetClass = false) :
    SchedStep env (n + 1) s (some req) =
      ((SchedStep env n
          { dropActive (armTimer env s req.RequestId) req.RequestId with
            FailedRequestCount := (armTimer env s req.RequestId).FailedRequestCount + 1 } none).1,
       Event.startedAsyncLoad req.RequestId ::
         invokeFailed req.OnLoadFailed req.RequestId "Failed to create streamable handle" ++
         (SchedStep env n
          { dropActive (armTimer env s req.RequestId) req.RequestId with
            FailedRequestCount := (armTimer env s req.RequestId).FailedRequestCount + 1 } none).2) := by
  simp [SchedStep, hcache, hh]

theorem popPending_framePres (s : ManagerState) (rest : List FAsyncWidgetLoadRequest) :
    framePres s (popPending s rest) := by
  simp [popPending, framePres]

theorem admitReq_framePres (s : ManagerState) (next : FAsyncWidgetLoadRequest)
    (rest : List FAsyncWidgetLoadRequest) : framePres s (admitReq s next rest) := by
  simp [admitReq, framePres]

theorem dropActive_framePres (s : ManagerState) (id : Guid) :
    framePres s (dropActive s id) := by
  simp [dropActive, framePres]

theorem armTimer_framePres (env : Env) (s : ManagerState) (id : Guid) :
    framePres s (armTimer env s id) := by
  unfold armTimer
  split <;> simp [framePres]

/-- The cache-hit completion helper only touches the cache and the
completed/failed counters. -/
theorem completeFromCache_proj (env : Env) (s : ManagerState)
    (req : FAsyncWidgetLoadRequest) (cached : ClassId) :
    (completeFromCache env s req cached).1.ActiveRequests = s.ActiveRequests ∧
    (completeFromCache env s req cached).1.PendingRequests = s.PendingRequests ∧
    (completeFromCache env s req cached).1.ActiveHandles = s.ActiveHandles ∧
    (completeFromCache env s req cached).1.TimeoutHandles = s.TimeoutHandles ∧
    (completeFromCache env s req cached).1.InFlight = s.InFlight ∧
    framePres s (completeFromCache env s req cached).1 := by
  unfold completeFromCache
  cases hcw : CreateAndSetupWidget env (some cached) req with
  | some w =>
    have h := invokeCompleted_proj env s req.OnLoadCompleted req.RequestId w
    simp only []
    refine ⟨h.1, h.2.1, h.2.2.1, h.2.2.2.1, h.2.2.2.2.1, ?_⟩
    obtain ⟨m1, m2, m3, m4, m5⟩ := h.2.2.2.2.2.2.2
    exact ⟨m1, m2, m3, m4, m5⟩
  | none => simp [framePres]

/-- Every event emitted by the cache-hit completion names the request. -/
theorem completeFromCache_events (env : Env) (s : ManagerState)
    (req : FAsyncWidgetLoadRequest) (cached : ClassId) :
    ∀ e ∈ (completeFromCache env s req cached).2, e.id = req.RequestId := by
  unfold completeFromCache
  cases hcw : CreateAndSetupWidget env (some cached) req with
  | some w => simpa using invokeCompleted_events env s req.OnLoadCompleted req.RequestId w
  | none => simpa using invokeFailed_events req.OnLoadFailed req.RequestId _

/-- The scheduler recursion never changes the concurrency limit, the total
and cancelled counters, the cancelled-id set or the timeout configuration. -/
theorem schedStep_framePres (env : Env) :
    ∀ fuel s o, framePres s (SchedStep env fuel s o).1 := by
  intro fuel
  induction fuel with
  | zero => intro s o; rw [schedStep_zero]; exact framePres_refl s
  | succ n ih =>
    intro s o
    cases o with
    | none =>
      cases hp : s.PendingRequests with
      | nil => rw [schedStep_none_nil env n s hp]; exact framePres_refl s
      | cons next rest =>
        by_cases hlt : (s.ActiveRequests.length : Int) < s.MaxConcurrentLoads
        · cases hc : (next.bCancelled || decide (next.RequestId ∈ s.CancelledRequestIds)) with
          | true =>
            rw [schedStep_none_skip env n s next rest hp hlt hc]
            exact framePres_trans (popPending_framePres s rest) (ih _ none)
          | false =>
            rw [schedStep_none_enter env n s next rest hp hlt hc]
            exact framePres_trans (admitReq_framePres s next rest) (ih _ (some next))
        · rw [schedStep_none_stop env n s next rest hp hlt]; exact framePres_refl s
    | some req =>
      cases hcache : GetFromWidgetClassCache s req.WidgetClass with
      | some cached =>
        rw [schedStep_some_hit env n s req cached hcache]
        refine framePres_trans ?_ (framePres_trans
          (dropActive_framePres (completeFromCache env s req cached).1 req.RequestId)
          (ih _ none))
        exact (completeFromCache_proj env s req cached).2.2.2.2.2
      | none =>
        cases hh : env.streamHandleValid req.WidgetClass with
        | true =>
          rw [schedStep_some_async env n s req hcache hh]
          refine framePres_trans (armTimer_framePres env s req.RequestId) ?_
          simp [framePres]
        | false =>
          rw [schedStep_some_nohandle env n s req hcache hh]
          refine framePres_trans ?_ (ih _ none)
          refine framePres_trans (armTimer_framePres env s req.RequestId) ?_
          refine framePres_trans
            (dropActive_framePres (armTimer env s req.RequestId) req.RequestId) ?_
          simp [framePres]

/-- The scheduler recursion keeps the active set within the concurrency
limit: it only admits a pending request into a strictly free slot. -/
theorem schedStep_active_le (env : Env) :
    ∀ fuel s o, (s.ActiveRequests.length : Int) ≤ s.MaxConcurrentLoads →
      ((SchedStep env fuel s o).1.ActiveRequests.length : Int) ≤
        (SchedStep env fuel s o).1.MaxConcurrentLoads := by
  intro fuel
  induction fuel with
  | zero => intro s o h; rw [schedStep_zero]; exact h
  | succ n ih =>
    intro s o h
    cases o with
    | none =>
      cases hp : s.PendingRequests with
      | nil => rw [schedStep_none_nil env n s hp]; exact h
      | cons next rest =>
        by_cases hlt : (s.ActiveRequests.length : Int) < s.MaxConcurrentLoads
        · cases hc : (next.bCancelled || decide (next.RequestId ∈ s.CancelledRequestIds)) with
          | true =>
            rw [schedStep_none_skip env n s next rest hp hlt hc]
            exact ih _ none (by simpa [popPending] using h)
          | false =>
            rw [schedStep_none_enter env n s next rest hp hlt hc]
            refine ih _ (some next) ?_
            simp only [admitReq, List.length_append, List.length_cons, List.length_nil]
            push_cast
            omega
        · rw [schedStep_none_stop env n s next rest hp hlt]; exact h
    | some req =>
      cases hcache : GetFromWidgetClassCache s req.WidgetClass with
      | some cached =>
        rw [schedStep_some_hit env n s req cached hcache]
        refine ih _ none ?_
        obtain ⟨ha, -, -, -, -, hm, -, -, -, -⟩ := completeFromCache_proj env s req cached
        have hlen := removeFirstReq_length
          (completeFromCache env s req cached).1.ActiveRequests req.RequestId
        simp only [dropActive, ha, hm]
        rw [ha] at hlen
        omega
      | none =>
        cases hh : env.streamHandleValid req.WidgetClass with
        | true =>
          rw [schedStep_some_async env n s req hcache hh]
          unfold armTimer
          split <;> simpa using h
        | false =>
          rw [schedStep_some_nohandle env n s req hcache hh]
          refine ih _ none ?_
          have hlen := removeFirstReq_length
            (armTimer env s req.RequestId).ActiveRequests req.RequestId
          have harm : (armTimer env s req.RequestId).ActiveRequests = s.ActiveRequests ∧
              (armTimer env s req.RequestId).MaxConcurrentLoads = s.MaxConcurrentLoads := by
            unfold armTimer; split <;> simp
          simp only [dropActive, harm.1, harm.2]
          rw [harm.1] at hlen
          omega

/-- Arming the timeout timer changes no field except the timer map. -/
theorem armTimer_proj (env : Env) (s : ManagerState) (id : Guid) :
    (armTimer env s id).ActiveRequests = s.ActiveRequests ∧
    (armTimer env s id).PendingRequests = s.PendingRequests ∧
    (armTimer env s id).CancelledRequestIds = s.CancelledRequestIds ∧
    (armTimer env s id).ActiveHandles = s.ActiveHandles ∧
    (armTimer env s id).InFlight = s.InFlight ∧
    (armTimer env s id).MaxConcurrentLoads = s.MaxConcurrentLoads ∧
    (armTimer env s id).TotalRequestCount = s.TotalRequestCount ∧
    (armTimer env s id).CompletedRequestCount = s.CompletedRequestCount ∧
    (armTimer env s id).FailedRequestCount = s.FailedRequestCount ∧
    (armTimer env s id).CancelledRequestCount = s.CancelledRequestCount ∧
    (armTimer env s id).WidgetClassCache = s.WidgetClassCache := by
  unfold armTimer
  split <;> simp

/-- The cache-hit completion helper never decreases either outcome counter. -/
theorem completeFromCache_counts (env : Env) (s : ManagerState)
    (req : FAsyncWidgetLoadRequest) (cached : ClassId) :
    s.FailedRequestCount ≤ (completeFromCache env s req cached).1.FailedRequestCount ∧
    s.CompletedRequestCount ≤ (completeFromCache env s req cached).1.CompletedRequestCount := by
  unfold completeFromCache
  cases hcw : CreateAndSetupWidget env (some cached) req with
  | some w =>
    have h := invokeCompleted_proj env s req.OnLoadCompleted req.RequestId w
    dsimp only
    omega
  | none => simp

/-- The scheduler recursion never decreases the completed and failed
counters. -/
theorem schedStep_counts_mono (env : Env) :
    ∀ fuel s o, s.FailedRequestCount ≤ (SchedStep env fuel s o).1.FailedRequestCount ∧
      s.CompletedRequestCount ≤ (SchedStep env fuel s o).1.CompletedRequestCount := by
  intro fuel
  induction fuel with
  | zero => intro s o; rw [schedStep_zero]; exact ⟨le_refl _, le_refl _⟩
  | succ n ih =>
    intro s o
    cases o with
    | none =>
      cases hp : s.PendingRequests with
      | nil => rw [schedStep_none_nil env n s hp]; exact ⟨le_refl _, le_refl _⟩
      | cons next rest =>
        by_cases hlt : (s.ActiveRequests.length : Int) < s.MaxConcurrentLoads
        · cases hc : (next.bCancelled || decide (next.RequestId ∈ s.CancelledRequestIds)) with
          | true =>
            rw [schedStep_none_skip env n s next rest hp hlt hc]
            have hrec := ih (popPending s rest) none
            simp only [popPending] at hrec
            exact hrec
          | false =>
            rw [schedStep_none_enter env n s next rest hp hlt hc]
            have hrec := ih (admitReq s next rest) (some next)
            simp only [admitReq] at hrec
            exact hrec
        · rw [schedStep_none_stop env n s next rest hp hlt]
          exact ⟨le_refl _, le_refl _⟩
    | some req =>
      cases hcache : GetFromWidgetClassCache s req.WidgetClass with
      | some cached =>
        rw [schedStep_some_hit env n s req cached hcache]
        have hrec := ih (dropActive (completeFromCache env s req cached).1 req.RequestId) none
        have hcf := completeFromCache_counts env s req cached
        simp only [dropActive] at hrec ⊢
        omega
      | none =>
        cases hh : env.streamHandleValid req.WidgetClass with
        | true =>
          rw [schedStep_some_async env n s req hcache hh]
          have h := armTimer_proj env s req.RequestId
          dsimp only
          omega
        | false =>
          rw [schedStep_some_nohandle env n s req hcache hh]
          have hrec := ih { dropActive (armTimer env s req.RequestId) req.RequestId with
            FailedRequestCount := (armTimer env s req.RequestId).FailedRequestCount + 1 } none
          have h := armTimer_proj env s req.RequestId
          simp only [dropActive] at hrec ⊢
          omega

/-- The scheduler recursion only consumes a front segment of the pending
queue, and every request in the resulting active set either was already
active, came from that consumed segment, or is the request being started. -/
theorem schedStep_origin (env : Env) :
    ∀ fuel s o, ∃ k,
      (SchedStep env fuel s o).1.PendingRequests = s.PendingRequests.drop k ∧
      ∀ r ∈ (SchedStep env fuel s o).1.ActiveRequests,
        r ∈ s.ActiveRequests ∨ r ∈ s.PendingRequests.take k ∨ o = some r := by
  intro fuel
  induction fuel with
  | zero =>
    intro s o
    rw [schedStep_zero]
    exact ⟨0, by simp, fun r hr => Or.inl hr⟩
  | succ n ih =>
    intro s o
    cases o with
    | none =>
      cases hp : s.PendingRequests with
      | nil =>
        rw [schedStep_none_nil env n s hp]
        exact ⟨0, by simp [hp], fun r hr => Or.inl hr⟩
      | cons next rest =>
        by_cases hlt : (s.ActiveRequests.length : Int) < s.MaxConcurrentLoads
        · cases hc : (next.bCancelled || decide (next.RequestId ∈ s.CancelledRequestIds)) with
          | true =>
            rw [schedStep_none_skip env n s next rest hp hlt hc]
            obtain ⟨k, h1, h2⟩ := ih (popPending s rest) none
            refine ⟨k + 1, ?_, ?_⟩
            · rw [h1]; simp [popPending, hp]
            · intro r hr
              rcases h2 r hr with h | h | h
              · exact Or.inl (by simpa [popPending] using h)
              · simp only [popPending] at h
                exact Or.inr (Or.inl (by simp [List.take_succ_cons, List.mem_cons, h]))
              · exact absurd h (by simp)
          | false =>
            rw [schedStep_none_enter env n s next rest hp hlt hc]
            obtain ⟨k, h1, h2⟩ := ih (admitReq s next rest) (some next)
            refine ⟨k + 1, ?_, ?_⟩
            · rw [h1]; simp [admitReq, hp]
            · intro r hr
              have hnext : next ∈ (next :: rest).take (k + 1) := by
                simp [List.take_succ_cons]
              rcases h2 r hr with h | h | h
              · simp only [admitReq, List.mem_append, List.mem_singleton] at h
                rcases h with h | h
                · exact Or.inl h
                · subst h; exact Or.inr (Or.inl hnext)
              · simp only [admitReq] at h
                exact Or.inr (Or.inl (by simp [List.take_succ_cons, List.mem_cons, h]))
              · obtain rfl : next = r := by simpa using h
                exact Or.inr (Or.inl hnext)
        · rw [schedStep_none_stop env n s next rest hp hlt]
          exact ⟨0, by simp [hp], fun r hr => Or.inl hr⟩
    | some req =>
      cases hcache : GetFromWidgetClassCache s req.WidgetClass with
      | some cached =>
        rw [schedStep_some_hit env n s req cached hcache]
        obtain ⟨k, h1, h2⟩ := ih (dropActive (completeFromCache env s req cached).1 req.RequestId) none
        obtain ⟨hact, hpend, -⟩ := completeFromCache_proj env s req cached
        refine ⟨k, ?_, ?_⟩
        · rw [h1]; simp [dropActive, hpend]
        · intro r hr
          rcases h2 r hr with h | h | h
          · simp only [dropActive] at h
            have := removeFirstReq_subset _ _ _ h
            rw [hact] at this
            exact Or.inl this
          · simp only [dropActive, hpend] at h
            exact Or.inr (Or.inl h)
          · exact absurd h (by simp)
      | none =>
        obtain ⟨hact, hpend, -⟩ := armTimer_proj env s req.RequestId
        cases hh : env.streamHandleValid req.WidgetClass with
        | true =>
          rw [schedStep_some_async env n s req hcache hh]
          refine ⟨0, by simpa using hpend, ?_⟩
          intro r hr
          simp only [] at hr
          rw [hact] at hr
          exact Or.inl hr
        | false =>
          rw [schedStep_some_nohandle env n s req hcache hh]
          obtain ⟨k, h1, h2⟩ := ih { dropActive (armTimer env s req.RequestId) req.RequestId with
            FailedRequestCount := (armTimer env s req.RequestId).FailedRequestCount + 1 } none
          refine ⟨k, ?_, ?_⟩
          · rw [h1]; simp [dropActive, hpend]
          · intro r hr
            rcases h2 r hr with h | h | h
            · simp only [dropActive] at h
              have := removeFirstReq_subset _ _ _ h
              rw [hact] at this
              exact Or.inl this
            · simp only [dropActive, hpend] at h
              exact Or.inr (Or.inl h)
            · exact absurd h (by simp)

/-- Every event the scheduler recursion emits concerns either a request that
was pending at entry or the request being started. -/
theorem schedStep_events (env : Env) :
    ∀ fuel s o, ∀ e ∈ (SchedStep env fuel s o).2,
      e.id ∈ pendingIds s ∨ ∃ r, o = some r ∧ e.id = r.RequestId := by
  intro fuel
  induction fuel with
  | zero => intro s o e he; rw [schedStep_zero] at he; simp at he
  | succ n ih =>
    intro s o
    cases o with
    | none =>
      cases hp : s.PendingRequests with
      | nil =>
        intro e he; rw [schedStep_none_nil env n s hp] at he; simp at he
      | cons next rest =>
        by_cases hlt : (s.ActiveRequests.length : Int) < s.MaxConcurrentLoads
        · cases hc : (next.bCancelled || decide (next.RequestId ∈ s.CancelledRequestIds)) with
          | true =>
            intro e he
            rw [schedStep_none_skip env n s next rest hp hlt hc] at he
            rcases ih (popPending s rest) none e he with h | ⟨r, hr, -⟩
            · simp only [popPending, pendingIds] at h
              refine Or.inl ?_
              rw [pendingIds, hp]
              simp only [List.map_cons, List.mem_cons]
              exact Or.inr h
            · exact absurd hr (by simp)
          | false =>
            intro e he
            rw [schedStep_none_enter env n s next rest hp hlt hc] at he
            rcases ih (admitReq s next rest) (some next) e he with h | ⟨r, hr, hid⟩
            · simp only [admitReq, pendingIds] at h
              refine Or.inl ?_
              rw [pendingIds, hp]
              simp only [List.map_cons, List.mem_cons]
              exact Or.inr h
            · obtain rfl : next = r := by simpa using hr
              refine Or.inl ?_
              rw [pendingIds, hp]
              simp [hid]
        · intro e he
          rw [schedStep_none_stop env n s next rest hp hlt] at he
          simp at he
    | some req =>
      cases hcache : GetFromWidgetClassCache s req.WidgetClass with
      | some cached =>
        intro e he
        rw [schedStep_some_hit env n s req cached hcache] at he
        simp only [List.mem_append] at he
        rcases he with he | he
        · exact Or.inr ⟨req, rfl, completeFromCache_events env s req cached e he⟩
        · obtain ⟨hpend⟩ : (dropActive (completeFromCache env s req cached).1
              req.RequestId).PendingRequests = s.PendingRequests ∧ True := by
            simp [dropActive, (completeFromCache_proj env s req cached).2.1]
          rcases ih _ none e he with h | ⟨r, hr, -⟩
          · rw [pendingIds, hpend] at h
            exact Or.inl h
          · exact absurd hr (by simp)
      | none =>
        cases hh : env.streamHandleValid req.WidgetClass with
        | true =>
          intro e he
          rw [schedStep_some_async env n s req hcache hh] at he
          simp only [List.mem_singleton] at he
          subst he
          exact Or.inr ⟨req, rfl, rfl⟩
        | false =>
          intro e he
          rw [schedStep_some_nohandle env n s req hcache hh] at he
          simp only [List.mem_cons, List.mem_append] at he
          rcases he with (he | he) | he
          · subst he; exact Or.inr ⟨req, rfl, rfl⟩
          · exact Or.inr ⟨req, rfl, invokeFailed_events req.OnLoadFailed req.RequestId _ e he⟩
          · have hpend : ({ dropActive (armTimer env s req.RequestId) req.RequestId with
                FailedRequestCount := (armTimer env s req.RequestId).FailedRequestCount + 1
                  : ManagerState }).PendingRequests = s.PendingRequests := by
              simp [dropActive, (armTimer_proj env s req.RequestId).2.1]
            rcases ih _ none e he with h | ⟨r, hr, -⟩
            · rw [pendingIds, hpend] at h
              exact Or.inl h
            · exact absurd hr (by simp)

/-- `admitsNext` only reads the pending queue of its first argument, so it
transfers along pending-queue inclusion. -/
theorem admitsNext_mono {s1 s t : ManagerState}
    (hsub : ∀ r ∈ s1.PendingRequests, r ∈ s.PendingRequests)
    (h : admitsNext s1 t) : admitsNext s t := by
  rcases h with h | h | ⟨r, hr, hrt⟩
  · exact Or.inl h
  · exact Or.inr (Or.inl h)
  · exact Or.inr (Or.inr ⟨r, hsub r hr, hrt⟩)

/-- Given enough fuel, the scheduler recursion never strands a free slot:
afterwards either the pending queue is drained, or the active set is full,
or a formerly pending request was admitted — except that starting a request
whose load goes asynchronous leaves the active set unchanged. -/
theorem schedStep_drains (env : Env) :
    ∀ fuel s o, schedFuel s o ≤ fuel →
      admitsNext s (SchedStep env fuel s o).1 ∨
        ∃ r, o = some r ∧ (SchedStep env fuel s o).1.ActiveRequests = s.ActiveRequests := by
  intro fuel
  induction fuel with
  | zero =>
    intro s o hfuel
    exact absurd hfuel (by cases o <;> simp [schedFuel])
  | succ n ih =>
    intro s o hfuel
    cases o with
    | none =>
      cases hp : s.PendingRequests with
      | nil =>
        rw [schedStep_none_nil env n s hp]
        exact Or.inl (Or.inl hp)
      | cons next rest =>
        by_cases hlt : (s.ActiveRequests.length : Int) < s.MaxConcurrentLoads
        · simp only [schedFuel, hp, List.length_cons] at hfuel
          cases hc : (next.bCancelled || decide (next.RequestId ∈ s.CancelledRequestIds)) with
          | true =>
            rw [schedStep_none_skip env n s next rest hp hlt hc]
            have hrec := ih (popPending s rest) none
              (by simp only [schedFuel, popPending]; omega)
            rcases hrec with h | ⟨r, hr, -⟩
            · refine Or.inl (admitsNext_mono ?_ h)
              intro r hrr
              simp only [popPending] at hrr
              rw [hp]
              exact List.mem_cons_of_mem next hrr
            · exact absurd hr (by simp)
          | false =>
            rw [schedStep_none_enter env n s next rest hp hlt hc]
            have hrec := ih (admitReq s next rest) (some next)
              (by simp only [schedFuel, admitReq]; omega)
            rcases hrec with h | ⟨r, hr, hact⟩
            · refine Or.inl (admitsNext_mono ?_ h)
              intro r hrr
              simp only [admitReq] at hrr
              rw [hp]
              exact List.mem_cons_of_mem next hrr
            · obtain rfl : next = r := by simpa using hr
              refine Or.inl (Or.inr (Or.inr ⟨next, ?_, ?_⟩))
              · rw [hp]; exact List.mem_cons_self next rest
              · rw [hact]; simp [admitReq]
        · rw [schedStep_none_stop env n s next rest hp hlt]
          exact Or.inl (Or.inr (Or.inl (not_lt.mp hlt)))
    | some req =>
      cases hcache : GetFromWidgetClassCache s req.WidgetClass with
      | some cached =>
        rw [schedStep_some_hit env n s req cached hcache]
        simp only [schedFuel] at hfuel
        have hpend : (dropActive (completeFromCache env s req cached).1
            req.RequestId).PendingRequests = s.PendingRequests := by
          simp [dropActive, (completeFromCache_proj env s req cached).2.1]
        have hrec := ih (dropActive (completeFromCache env s req cached).1 req.RequestId) none
          (by simp only [schedFuel, hpend]; omega)
        rcases hrec with h | ⟨r, hr, -⟩
        · refine Or.inl (admitsNext_mono ?_ h)
          intro r hrr
          rwa [hpend] at hrr
        · exact absurd hr (by simp)
      | none =>
        cases hh : env.streamHandleValid req.WidgetClass with
        | true =>
          rw [schedStep_some_async env n s req hcache hh]
          refine Or.inr ⟨req, rfl, ?_⟩
          exact (armTimer_proj env s req.RequestId).1
        | false =>
          rw [schedStep_some_nohandle env n s req hcache hh]
          simp only [schedFuel] at hfuel
          have hpend : (dropActive (armTimer env s req.RequestId)
              req.RequestId).PendingRequests = s.PendingRequests := by
            simp [dropActive, (armTimer_proj env s req.RequestId).2.1]
          have hrec := ih { dropActive (armTimer env s req.RequestId) req.RequestId with
              FailedRequestCount := (armTimer env s req.RequestId).FailedRequestCount + 1 } none
            (by simp only [schedFuel]; rw [hpend]; omega)
          rcases hrec with h | ⟨r, hr, -⟩
          · refine Or.inl (admitsNext_mono ?_ h)
            intro r hrr
            simp only at hrr
            rwa [hpend] at hrr
          · exact absurd hr (by simp)

/-- Under the admission condition, one `ProcessNextRequest` call strictly
shrinks the pending queue (this is what bounds the `while` loop in
`SetMaxConcurrentLoads`). -/
theorem pnr_pending_lt (env : Env) (s : ManagerState)
    (hne : s.PendingRequests ≠ [])
    (hlt : (s.ActiveRequests.length : Int) < s.MaxConcurrentLoads) :
    (ProcessNextRequest env s).1.PendingRequests.length < s.PendingRequests.length := by
  cases hp : s.PendingRequests with
  | nil => exact absurd hp hne
  | cons next rest =>
    unfold ProcessNextRequest
    cases hc : (next.bCancelled || decide (next.RequestId ∈ s.CancelledRequestIds)) with
    | true =>
      rw [schedStep_none_skip env _ s next rest hp hlt hc]
      obtain ⟨k, h1, -⟩ :=
        schedStep_origin env (2 * s.PendingRequests.length) (popPending s rest) none
      rw [h1]
      simp only [popPending, List.length_drop, List.length_cons]
      omega
    | false =>
      rw [schedStep_none_enter env _ s next rest hp hlt hc]
      obtain ⟨k, h1, -⟩ :=
        schedStep_origin env (2 * s.PendingRequests.length) (admitReq s next rest) (some next)
      rw [h1]
      simp only [admitReq, List.length_drop, List.length_cons]
      omega

/-- The `while` loop of `SetMaxConcurrentLoads` does not change the frame
components either. -/
theorem drainLoop_framePres (env : Env) :
    ∀ fuel s, framePres s (drainLoop env fuel s).1 := by
  intro fuel
  induction fuel with
  | zero => intro s; exact framePres_refl s
  | succ n ih =>
    intro s
    simp only [drainLoop]
    split
    · exact framePres_trans (schedStep_framePres env _ s none) (ih _)
    · exact framePres_refl s

/-- The `while` loop of `SetMaxConcurrentLoads` keeps the active set within
the concurrency limit. -/
theorem drainLoop_active_le (env : Env) :
    ∀ fuel s, (s.ActiveRequests.length : Int) ≤ s.MaxConcurrentLoads →
      ((drainLoop env fuel s).1.ActiveRequests.length : Int) ≤
        (drainLoop env fuel s).1.MaxConcurrentLoads := by
  intro fuel
  induction fuel with
  | zero => intro s h; exact h
  | succ n ih =>
    intro s h
    simp only [drainLoop]
    split
    · exact ih _ (schedStep_active_le env _ s none h)
    · exact h

/-- The `while` loop of `SetMaxConcurrentLoads` also only consumes a front
segment of the pending queue. -/
theorem drainLoop_pending_drop (env : Env) :
    ∀ fuel s, ∃ k, (drainLoop env fuel s).1.PendingRequests = s.PendingRequests.drop k := by
  intro fuel
  induction fuel with
  | zero => intro s; exact ⟨0, by simp [drainLoop]⟩
  | succ n ih =>
    intro s
    simp only [drainLoop]
    split
    · obtain ⟨k1, h1, -⟩ := schedStep_origin env (2 * s.PendingRequests.length + 1) s none
      obtain ⟨k2, h2⟩ := ih (ProcessNextRequest env s).1
      unfold ProcessNextRequest at h2
      rw [h1, List.drop_drop] at h2
      exact ⟨_, h2⟩
    · exact ⟨0, by simp⟩

/-- With fuel at least the pending-queue length, the `while` loop of
`SetMaxConcurrentLoads` runs to quiescence: it stops only when the pending
queue is empty or every slot is busy. -/
theorem drainLoop_post (env : Env) :
    ∀ fuel s, s.PendingRequests.length ≤ fuel →
      (drainLoop env fuel s).1.PendingRequests = [] ∨
        (drainLoop env fuel s).1.MaxConcurrentLoads ≤
          ((drainLoop env fuel s).1.ActiveRequests.length : Int) := by
  intro fuel
  induction fuel with
  | zero =>
    intro s h
    exact Or.inl (List.length_eq_zero.mp (Nat.le_zero.mp h))
  | succ n ih =>
    intro s h
    simp only [drainLoop]
    split
    · rename_i hcond
      have hlt := pnr_pending_lt env s hcond.2 hcond.1
      exact ih (ProcessNextRequest env s).1 (by omega)
    · rename_i hcond
      push_neg at hcond
      by_cases hne : s.PendingRequests = []
      · exact Or.inl hne
      · exact Or.inr (not_lt.mp (fun hlt2 => hne (by
          have := hcond hlt2
          exact this)))

/-- `AddToWidgetClassCache` touches only the cache. -/
theorem addCache_proj (env : Env) (s : ManagerState) (ref : WidgetRef)
    (ocls : Option ClassId) :
    (AddToWidgetClassCache env s ref ocls).ActiveRequests = s.ActiveRequests ∧
    (AddToWidgetClassCache env s ref ocls).PendingRequests = s.PendingRequests ∧
    (AddToWidgetClassCache env s ref ocls).CancelledRequestIds = s.CancelledRequestIds ∧
    (AddToWidgetClassCache env s ref ocls).ActiveHandles = s.ActiveHandles ∧
    (AddToWidgetClassCache env s ref ocls).TimeoutHandles = s.TimeoutHandles ∧
    (AddToWidgetClassCache env s ref ocls).InFlight = s.InFlight ∧
    (AddToWidgetClassCache env s ref ocls).MaxConcurrentLoads = s.MaxConcurrentLoads ∧
    (AddToWidgetClassCache env s ref ocls).LoadTimeoutSeconds = s.LoadTimeoutSeconds ∧
    (AddToWidgetClassCache env s ref ocls).TotalRequestCount = s.TotalRequestCount ∧
    (AddToWidgetClassCache env s ref ocls).CompletedRequestCount = s.CompletedRequestCount ∧
    (AddToWidgetClassCache env s ref ocls).FailedRequestCount = s.FailedRequestCount ∧
    (AddToWidgetClassCache env s ref ocls).CancelledRequestCount = s.CancelledRequestCount := by
  cases ocls with
  | none => simp [AddToWidgetClassCache]
  | some cls =>
    by_cases hv : env.refValid ref = true
    · simp [AddToWidgetClassCache, hv]
    · simp only [Bool.not_eq_true] at hv
      simp [AddToWidgetClassCache, hv]

/-- `cancelHandle` touches only the handle map and the in-flight callbacks. -/
theorem cancelHandle_proj (s : ManagerState) (id : Guid) :
    (cancelHandle s id).ActiveRequests = s.ActiveRequests ∧
    (cancelHandle s id).PendingRequests = s.PendingRequests ∧
    (cancelHandle s id).CancelledRequestIds = s.CancelledRequestIds ∧
    (cancelHandle s id).TimeoutHandles = s.TimeoutHandles ∧
    (cancelHandle s id).MaxConcurrentLoads = s.MaxConcurrentLoads ∧
    (cancelHandle s id).LoadTimeoutSeconds = s.LoadTimeoutSeconds ∧
    (cancelHandle s id).TotalRequestCount = s.TotalRequestCount ∧
    (cancelHandle s id).CompletedRequestCount = s.CompletedRequestCount ∧
    (cancelHandle s id).FailedRequestCount = s.FailedRequestCount ∧
    (cancelHandle s id).CancelledRequestCount = s.CancelledRequestCount ∧
    (cancelHandle s id).WidgetClassCache = s.WidgetClassCache := by
  unfold cancelHandle
  split <;> simp

theorem quietPres_refl (s : ManagerState) : quietPres s s := by
  simp [quietPres]

theorem quietPres_trans {s t u : ManagerState} (h1 : quietPres s t)
    (h2 : quietPres t u) : quietPres s u := by
  obtain ⟨a1, a2, a3, a4, a5, a6, a7, a8, a9, a10⟩ := h1
  obtain ⟨b1, b2, b3, b4, b5, b6, b7, b8, b9, b10⟩ := h2
  exact ⟨b1.trans a1, b2.trans a2, b3.trans a3, b4.trans a4, b5.trans a5,
    b6.trans a6, b7.trans a7, b8.trans a8, b9.trans a9, b10.trans a10⟩

theorem addCache_quiet (env : Env) (s : ManagerState) (ref : WidgetRef)
    (ocls : Option ClassId) : quietPres s (AddToWidgetClassCache env s ref ocls) := by
  have h := addCache_proj env s ref ocls
  exact ⟨h.1, h.2.1, h.2.2.1, h.2.2.2.1, h.2.2.2.2.1, h.2.2.2.2.2.1,
    h.2.2.2.2.2.2.1, h.2.2.2.2.2.2.2.1, h.2.2.2.2.2.2.2.2.1, h.2.2.2.2.2.2.2.2.2.2.2⟩

theorem invokeCompleted_quiet (env : Env) (s : ManagerState) (cb : CompletedCb)
    (id : Guid) (w : Widget) : quietPres s (invokeCompleted env s cb id w).1 := by
  have h := invokeCompleted_proj env s cb id w
  obtain ⟨f1, f2, f3, f4, f5⟩ := h.2.2.2.2.2.2.2
  exact ⟨h.1, h.2.1, f4, h.2.2.1, h.2.2.2.1, h.2.2.2.2.1, f1, f5, f2, f3⟩

/-- The outcome computation of `OnWidgetClassLoaded` touches only the cache
and the completed/failed counters. -/
theorem owclOutcome_quiet (env : Env) (s1 : ManagerState)
    (req : FAsyncWidgetLoadRequest) : quietPres s1 (owclOutcome env s1 req).1 := by
  unfold owclOutcome
  cases hl : env.loadedGet req.WidgetClass with
  | none => exact ⟨rfl, rfl, rfl, rfl, rfl, rfl, rfl, rfl, rfl, rfl⟩
  | some loadedClass =>
    dsimp only
    by_cases hic : IsWidgetClassCached env s1 req.WidgetClass = true
    · rw [if_pos hic]
      cases hcw : CreateAndSetupWidget env (some loadedClass) req with
      | some w =>
        dsimp only
        exact quietPres_trans
          (invokeCompleted_quiet env s1 req.OnLoadCompleted req.RequestId w)
          ⟨rfl, rfl, rfl, rfl, rfl, rfl, rfl, rfl, rfl, rfl⟩
      | none => exact ⟨rfl, rfl, rfl, rfl, rfl, rfl, rfl, rfl, rfl, rfl⟩
    · rw [if_neg hic]
      cases hcw : CreateAndSetupWidget env (some loadedClass) req with
      | some w =>
        dsimp only
        refine quietPres_trans (quietPres_trans
          (addCache_quiet env s1 req.WidgetClass (some loadedClass))
          (invokeCompleted_quiet env _ req.OnLoadCompleted req.RequestId w)) ?_
        exact ⟨rfl, rfl, rfl, rfl, rfl, rfl, rfl, rfl, rfl, rfl⟩
      | none =>
        dsimp only
        refine quietPres_trans
          (addCache_quiet env s1 req.WidgetClass (some loadedClass)) ?_
        exact ⟨rfl, rfl, rfl, rfl, rfl, rfl, rfl, rfl, rfl, rfl⟩

theorem startLoading_framePres (env : Env) (s : ManagerState)
    (req : FAsyncWidgetLoadRequest) : framePres s (StartLoadingWidget env s req).1 :=
  schedStep_framePres env _ s (some req)

theorem pnr_framePres (env : Env) (s : ManagerState) :
    framePres s (ProcessNextRequest env s).1 :=
  schedStep_framePres env _ s none

theorem startLoading_active_le (env : Env) (s : ManagerState)
    (req : FAsyncWidgetLoadRequest)
    (h : (s.ActiveRequests.length : Int) ≤ s.MaxConcurrentLoads) :
    ((StartLoadingWidget env s req).1.ActiveRequests.length : Int) ≤
      (StartLoadingWidget env s req).1.MaxConcurrentLoads :=
  schedStep_active_le env _ s (some req) h

theorem pnr_active_le (env : Env) (s : ManagerState)
    (h : (s.ActiveRequests.length : Int) ≤ s.MaxConcurrentLoads) :
    ((ProcessNextRequest env s).1.ActiveRequests.length : Int) ≤
      (ProcessNextRequest env s).1.MaxConcurrentLoads :=
  schedStep_active_le env _ s none h

/-- `OnWidgetClassLoaded` keeps the active set within the concurrency limit
and leaves the limit itself unchanged. -/
theorem owcl_bound (env : Env) (s : ManagerState) (req : FAsyncWidgetLoadRequest)
    (hle : (s.ActiveRequests.length : Int) ≤ s.MaxConcurrentLoads) :
    (OnWidgetClassLoaded env s req).1.MaxConcurrentLoads = s.MaxConcurrentLoads ∧
      ((OnWidgetClassLoaded env s req).1.ActiveRequests.length : Int) ≤
        (OnWidgetClassLoaded env s req).1.MaxConcurrentLoads := by
  unfold OnWidgetClassLoaded
  have hs1a : (clearTimer (dropHandle s req.RequestId) req.RequestId).ActiveRequests
      = s.ActiveRequests := rfl
  have hs1m : (clearTimer (dropHandle s req.RequestId) req.RequestId).MaxConcurrentLoads
      = s.MaxConcurrentLoads := rfl
  dsimp only
  split
  · refine ⟨?_, ?_⟩
    · rw [(pnr_framePres env _).1]
      simp only [dropActive]
      exact hs1m
    · apply pnr_active_le
      simp only [dropActive]
      rw [hs1m]
      have hlen := removeFirstReq_length
        (clearTimer (dropHandle s req.RequestId) req.RequestId).ActiveRequests req.RequestId
      have hlen2 : (clearTimer (dropHandle s req.RequestId)
          req.RequestId).ActiveRequests.length = s.ActiveRequests.length := by rw [hs1a]
      omega
  · have hq := owclOutcome_quiet env
      (clearTimer (dropHandle s req.RequestId) req.RequestId) req
    refine ⟨?_, ?_⟩
    · rw [(pnr_framePres env _).1]
      simp only [dropActive]
      rw [hq.2.2.2.2.2.2.1]
      exact hs1m
    · apply pnr_active_le
      simp only [dropActive]
      rw [hq.2.2.2.2.2.2.1, hs1m]
      have hlen := removeFirstReq_length
        (owclOutcome env (clearTimer (dropHandle s req.RequestId) req.RequestId)
          req).1.ActiveRequests req.RequestId
      have hlen2 : (owclOutcome env (clearTimer (dropHandle s req.RequestId) req.RequestId)
          req).1.ActiveRequests.length = s.ActiveRequests.length := by rw [hq.1, hs1a]
      omega

/-- `HandleLoadTimeout` keeps the active set within the concurrency limit
and leaves the limit itself unchanged. -/
theorem hlt_bound (env : Env) (s : ManagerState) (requestId : Guid)
    (hle : (s.ActiveRequests.length : Int) ≤ s.MaxConcurrentLoads) :
    (HandleLoadTimeout env s requestId).1.MaxConcurrentLoads = s.MaxConcurrentLoads ∧
      ((HandleLoadTimeout env s requestId).1.ActiveRequests.length : Int) ≤
        (HandleLoadTimeout env s requestId).1.MaxConcurrentLoads := by
  unfold HandleLoadTimeout
  split
  · exact ⟨rfl, hle⟩
  · have hch := cancelHandle_proj s requestId
    dsimp only
    refine ⟨?_, ?_⟩
    · rw [(pnr_framePres env _).1]
      simp only [clearTimer]
      exact hch.2.2.2.2.1
    · apply pnr_active_le
      simp only [clearTimer]
      rw [hch.2.2.2.2.1]
      have hlen := removeFirstReq_length (cancelHandle s requestId).ActiveRequests requestId
      have hlen2 : (cancelHandle s requestId).ActiveRequests.length
          = s.ActiveRequests.length := by rw [hch.1]
      omega

/-- Every action that never lowers the concurrency limit below the current
active count preserves the bound invariant. -/
theorem applyAction_bound (s : ManagerState) (a : MgrAction)
    (hmax : 1 ≤ s.MaxConcurrentLoads)
    (hle : (s.ActiveRequests.length : Int) ≤ s.MaxConcurrentLoads)
    (hsafe : shrinkSafe s a) :
    1 ≤ (applyAction s a).MaxConcurrentLoads ∧
      ((applyAction s a).ActiveRequests.length : Int) ≤
        (applyAction s a).MaxConcurrentLoads := by
  cases a with
  | submit env ref cbC cbF rp dp z p newId now =>
    simp only [applyAction, LoadWidgetAsync]
    split
    · exact ⟨hmax, hle⟩
    · split
      · rename_i hlt
        refine ⟨?_, ?_⟩
        · rw [(startLoading_framePres env _ _).1]
          exact hmax
        · apply startLoading_active_le
          simp only [List.length_append, List.length_cons, List.length_nil]
          push_cast
          omega
      · exact ⟨hmax, hle⟩
  | cancel env id =>
    simp only [applyAction, CancelLoadRequest]
    split
    · exact ⟨hmax, hle⟩
    · split
      · dsimp only
        have hch := cancelHandle_proj s id
        refine ⟨?_, ?_⟩
        · rw [(pnr_framePres env _).1]
          simp only [clearTimer]
          rw [hch.2.2.2.2.1]
          exact hmax
        · apply pnr_active_le
          simp only [clearTimer]
          rw [hch.2.2.2.2.1]
          have hlen := removeFirstReq_length (cancelHandle s id).ActiveRequests id
          have hlen2 : (cancelHandle s id).ActiveRequests.length
              = s.ActiveRequests.length := by rw [hch.1]
          omega
      · split
        · exact ⟨hmax, hle⟩
        · exact ⟨hmax, hle⟩
  | cancelAll =>
    simp only [applyAction, CancelAllLoadRequests]
    refine ⟨hmax, ?_⟩
    simp only [List.length_nil]
    omega
  | setMaxConcurrent env n =>
    simp only [applyAction, SetMaxConcurrentLoads]
    simp only [shrinkSafe] at hsafe
    refine ⟨?_, ?_⟩
    · rw [(drainLoop_framePres env _ _).1]
      exact le_max_left 1 n
    · exact drainLoop_active_le env _ _ hsafe
  | setTimeout t =>
    simp only [applyAction, SetLoadTimeout]
    exact ⟨hmax, hle⟩
  | deliver env id =>
    simp only [applyAction]
    split
    · rename_i req hfind
      have h := owcl_bound env
        { s with InFlight := s.InFlight.filter (fun r => !decide (r.RequestId = id)) } req hle
      exact ⟨by rw [h.1]; exact hmax, h.2⟩
    · exact ⟨hmax, hle⟩
  | fireTimeout env id =>
    simp only [applyAction]
    have h := hlt_bound env s id hle
    exact ⟨by rw [h.1]; exact hmax, h.2⟩
  | cleanup =>
    simp only [applyAction, CleanupCompletedRequests]
    split <;> exact ⟨hmax, hle⟩
  | preload env ref p newId now =>
    simp only [applyAction, PreloadWidgetClass]
    split
    · exact ⟨hmax, hle⟩
    · split
      · exact ⟨hmax, hle⟩
      · split
        · rename_i hlt
          refine ⟨?_, ?_⟩
          · rw [(startLoading_framePres env _ _).1]
            exact hmax
          · apply startLoading_active_le
            simp only [List.length_append, List.length_cons, List.length_nil]
            push_cast
            omega
        · exact ⟨hmax, hle⟩
  | clearCache =>
    simp only [applyAction, ClearCache]
    exact ⟨hmax, hle⟩

/-- States reachable without shrinking the limit keep the bound invariant. -/
theorem reachSafe_bound (s : ManagerState) (h : ReachSafe s) :
    1 ≤ s.MaxConcurrentLoads ∧
      (s.ActiveRequests.length : Int) ≤ s.MaxConcurrentLoads := by
  induction h with
  | init => exact ⟨by norm_num [initialState], by norm_num [initialState]⟩
  | step s a _ hsafe ih => exact applyAction_bound s a ih.1 ih.2 hsafe

/-- The scheduler recursion preserves sortedness of the pending queue. -/
theorem schedStep_sorted (env : Env) (fuel : Nat) (s : ManagerState)
    (o : Option FAsyncWidgetLoadRequest)
    (hs : List.Sorted pendingOrder s.PendingRequests) :
    List.Sorted pendingOrder (SchedStep env fuel s o).1.PendingRequests := by
  obtain ⟨k, h1, -⟩ := schedStep_origin env fuel s o
  rw [h1]
  exact List.Pairwise.sublist (List.drop_sublist k _) hs

/-- The drain loop preserves sortedness of the pending queue. -/
theorem drainLoop_sorted (env : Env) (fuel : Nat) (s : ManagerState)
    (hs : List.Sorted pendingOrder s.PendingRequests) :
    List.Sorted pendingOrder (drainLoop env fuel s).1.PendingRequests := by
  obtain ⟨k, h1⟩ := drainLoop_pending_drop env fuel s
  rw [h1]
  exact List.Pairwise.sublist (List.drop_sublist k _) hs

/-- Every action preserves sortedness of the pending queue: insertions
re-sort, admissions pop the front, cancellation removes one element. -/
theorem applyAction_sorted (s : ManagerState) (a : MgrAction)
    (hs : List.Sorted pendingOrder s.PendingRequests) :
    List.Sorted pendingOrder (applyAction s a).PendingRequests := by
  cases a with
  | submit env ref cbC cbF rp dp z p newId now =>
    simp only [applyAction, LoadWidgetAsync]
    split
    · exact hs
    · split
      · exact schedStep_sorted env _ _ _ hs
      · exact List.sorted_insertionSort pendingOrder _
  | cancel env id =>
    simp only [applyAction, CancelLoadRequest]
    split
    · exact hs
    · split
      · apply schedStep_sorted
        simp only [clearTimer]
        rw [(cancelHandle_proj s id).2.1]
        exact hs
      · split
        · exact List.Pairwise.sublist (removeFirstReq_sublist _ _) hs
        · exact hs
  | cancelAll =>
    simp only [applyAction, CancelAllLoadRequests]
    exact List.sorted_nil
  | setMaxConcurrent env n =>
    simp only [applyAction, SetMaxConcurrentLoads]
    exact drainLoop_sorted env _ _ hs
  | setTimeout t =>
    simp only [applyAction, SetLoadTimeout]
    exact hs
  | deliver env id =>
    simp only [applyAction]
    split
    · rename_i req hfind
      simp only [OnWidgetClassLoaded]
      split
      · apply schedStep_sorted
        simp only [dropActive, clearTimer, dropHandle]
        exact hs
      · apply schedStep_sorted
        simp only [dropActive]
        rw [(owclOutcome_quiet env _ req).2.1]
        simp only [clearTimer, dropHandle]
        exact hs
    · exact hs
  | fireTimeout env id =>
    simp only [applyAction, HandleLoadTimeout]
    split
    · exact hs
    · apply schedStep_sorted
      simp only [clearTimer]
      rw [(cancelHandle_proj s id).2.1]
      exact hs
  | cleanup =>
    simp only [applyAction, CleanupCompletedRequests]
    split <;> exact hs
  | preload env ref p newId now =>
    simp only [applyAction, PreloadWidgetClass]
    split
    · exact hs
    · split
      · exact hs
      · split
        · exact schedStep_sorted env _ _ _ hs
        · exact List.sorted_insertionSort pendingOrder _
  | clearCache =>
    simp only [applyAction, ClearCache]
    exact hs

/-- In every reachable state, the pending queue is sorted by strict
priority with submission-time tie-break. -/
theorem reach_sorted (s : ManagerState) (h : Reach s) :
    List.Sorted pendingOrder s.PendingRequests := by
  induction h with
  | init => exact List.sorted_nil
  | step s a _ ih => exact applyAction_sorted s a ih

/-- `ProcessNextRequest`, called with its actual fuel, reaches quiescence:
it never leaves a free slot with an admissible pending request waiting. -/
theorem pnr_drains (env : Env) (s : ManagerState) :
    admitsNext s (ProcessNextRequest env s).1 := by
  rcases schedStep_drains env (2 * s.PendingRequests.length + 1) s none
      (by simp [schedFuel]) with h | ⟨r, hr, -⟩
  · exact h
  · exact absurd hr (by simp)

/-- `StartLoadingWidget` either reaches quiescence or leaves the active set
untouched (the asynchronous-load branch). -/
theorem startLoading_drains (env : Env) (s : ManagerState)
    (req : FAsyncWidgetLoadRequest) :
    admitsNext s (StartLoadingWidget env s req).1 ∨
      (StartLoadingWidget env s req).1.ActiveRequests = s.ActiveRequests := by
  rcases schedStep_drains env (2 * s.PendingRequests.length + 2) s (some req)
      (by simp [schedFuel]) with h | ⟨r, -, ha⟩
  · exact Or.inl h
  · exact Or.inr ha

/-- `OnWidgetClassLoaded` always ends by admitting pending work. -/
theorem owcl_admits (env : Env) (s : ManagerState) (req : FAsyncWidgetLoadRequest) :
    admitsNext s (OnWidgetClassLoaded env s req).1 := by
  unfold OnWidgetClassLoaded
  dsimp only
  split
  · refine admitsNext_mono ?_ (pnr_drains env _)
    intro r hr
    simpa [dropActive, clearTimer, dropHandle] using hr
  · refine admitsNext_mono ?_ (pnr_drains env _)
    intro r hr
    simp only [dropActive] at hr
    rw [(owclOutcome_quiet env _ req).2.1] at hr
    simpa [clearTimer, dropHandle] using hr

/-- Any action that removes a request from the active set ends in a state
where the freed slot was not lost. -/
theorem applyAction_admits (s : ManagerState) (a : MgrAction)
    (hrem : ∃ g, g ∈ activeIds s ∧ g ∉ activeIds (applyAction s a)) :
    admitsNext s (applyAction s a) := by
  obtain ⟨g, hg1, hg2⟩ := hrem
  cases a with
  | submit env ref cbC cbF rp dp z p newId now =>
    revert hg2
    simp only [applyAction, LoadWidgetAsync]
    split
    · exact fun hg2 => absurd hg1 hg2
    · split
      · intro hg2
        rcases startLoading_drains env _ _ with h | ha
        · exact admitsNext_mono (fun r hr => hr) h
        · exfalso
          apply hg2
          rw [activeIds, ha]
          simp only [List.map_append, List.mem_append]
          exact Or.inl hg1
      · intro hg2
        exact absurd hg1 hg2
  | cancel env id =>
    revert hg2
    simp only [applyAction, CancelLoadRequest]
    split
    · exact fun hg2 => absurd hg1 hg2
    · split
      · intro hg2
        refine admitsNext_mono ?_ (pnr_drains env _)
        intro r hr
        simp only [clearTimer] at hr
        rwa [(cancelHandle_proj s id).2.1] at hr
      · split
        · exact fun hg2 => absurd hg1 hg2
        · exact fun hg2 => absurd hg1 hg2
  | cancelAll =>
    exact Or.inl rfl
  | setMaxConcurrent env n =>
    simp only [applyAction, SetMaxConcurrentLoads]
    rcases drainLoop_post env s.PendingRequests.length
        { s with MaxConcurrentLoads := max 1 n } (by simp) with h | h
    · exact Or.inl h
    · exact Or.inr (Or.inl h)
  | setTimeout t =>
    exact absurd hg1 hg2
  | deliver env id =>
    revert hg2
    simp only [applyAction]
    split
    · rename_i req hfind
      exact fun hg2 => admitsNext_mono (fun r hr => hr) (owcl_admits env _ req)
    · exact fun hg2 => absurd hg1 hg2
  | fireTimeout env id =>
    revert hg2
    simp only [applyAction, HandleLoadTimeout]
    split
    · exact fun hg2 => absurd hg1 hg2
    · intro hg2
      refine admitsNext_mono ?_ (pnr_drains env _)
      intro r hr
      simp only [clearTimer] at hr
      rwa [(cancelHandle_proj s id).2.1] at hr
  | cleanup =>
    revert hg2
    simp only [applyAction, CleanupCompletedRequests]
    split <;> exact fun hg2 => absurd hg1 hg2
  | preload env ref p newId now =>
    revert hg2
    simp only [applyAction, PreloadWidgetClass]
    split
    · exact fun hg2 => absurd hg1 hg2
    · split
      · exact fun hg2 => absurd hg1 hg2
      · split
        · intro hg2
          rcases startLoading_drains env _ _ with h | ha
          · exact admitsNext_mono (fun r hr => hr) h
          · exfalso
            apply hg2
            rw [activeIds, ha]
            simp only [List.map_append, List.mem_append]
            exact Or.inl hg1
        · exact fun hg2 => absurd hg1 hg2
  | clearCache =>
    exact absurd hg1 hg2

/-- Adding an id to the cancelled set makes it a member. -/
theorem idSetAdd_mem (l : List Guid) (g : Guid) : g ∈ idSetAdd l g := by
  unfold idSetAdd
  split
  · assumption
  · simp

/-- Membership in the cancelled set after an insertion. -/
theorem idSetAdd_mem_iff (l : List Guid) (g x : Guid) :
    x ∈ idSetAdd l g ↔ x ∈ l ∨ x = g := by
  unfold idSetAdd
  split
  · rename_i h
    constructor
    · exact Or.inl
    · rintro (hx | rfl)
      · exact hx
      · exact h
  · simp

/-- When a matching element exists, removal shrinks the list by one. -/
theorem removeFirstReq_length_of_found (l : List FAsyncWidgetLoadRequest) (g : Guid)
    (req : FAsyncWidgetLoadRequest)
    (hfind : l.find? (fun r => decide (r.RequestId = g)) = some req) :
    (removeFirstReq l g).length + 1 = l.length := by
  induction l with
  | nil => simp at hfind
  | cons r rs ih =>
    by_cases h : r.RequestId = g
    · simp [removeFirstReq, h]
    · rw [List.find?_cons_of_neg _ (by simpa using h)] at hfind
      simp only [removeFirstReq, if_neg h, List.length_cons]
      rw [← ih hfind]

/-- Removing a trailing singleton that matches, from a list with no other
match, yields the front part. -/
theorem removeFirstReq_append_singleton (l : List FAsyncWidgetLoadRequest)
    (r : FAsyncWidgetLoadRequest) (g : Guid)
    (hng : ∀ x ∈ l, x.RequestId ≠ g) (hr : r.RequestId = g) :
    removeFirstReq (l ++ [r]) g = l := by
  induction l with
  | nil => simp [removeFirstReq, hr]
  | cons x xs ih =>
    have hx : x.RequestId ≠ g := hng x (by simp)
    simp only [List.cons_append, removeFirstReq, if_neg hx]
    have hih := ih (fun y hy => hng y (by simp [hy]))
    rw [show xs.append [r] = xs ++ [r] from rfl, hih]

/-- `ProcessNextRequest` admits an uncancelled head whose class is not
cached and whose asynchronous load starts successfully: the head lands in
the active set (and among the in-flight callbacks). -/
theorem pnr_admits_head (env : Env) (s : ManagerState)
    (r : FAsyncWidgetLoadRequest) (rest : List FAsyncWidgetLoadRequest)
    (hp : s.PendingRequests = r :: rest)
    (hlt : (s.ActiveRequests.length : Int) < s.MaxConcurrentLoads)
    (hc : r.bCancelled = false) (hc2 : r.RequestId ∉ s.CancelledRequestIds)
    (hcache : GetFromWidgetClassCache s r.WidgetClass = none)
    (hh : env.streamHandleValid r.WidgetClass = true) :
    r ∈ (ProcessNextRequest env s).1.ActiveRequests ∧
      r ∈ (ProcessNextRequest env s).1.InFlight := by
  unfold ProcessNextRequest
  rw [schedStep_none_enter env _ s r rest hp hlt (by simp [hc, hc2])]
  have hfuel : 2 * s.PendingRequests.length = (2 * rest.length + 1) + 1 := by
    rw [hp]; simp [List.length_cons]; ring
  rw [hfuel]
  have hcache2 : GetFromWidgetClassCache (admitReq s r rest) r.WidgetClass = none := hcache
  rw [schedStep_some_async env _ _ r hcache2 hh]
  have ha := (armTimer_proj env (admitReq s r rest) r.RequestId).1
  constructor
  · show r ∈ (armTimer env (admitReq s r rest) r.RequestId).ActiveRequests
    rw [ha]
    simp [admitReq]
  · show r ∈ (armTimer env (admitReq s r rest) r.RequestId).InFlight ++ [r]
    simp

/-- C6: a submit call with a null reference synchronously invokes the bound
failure delegate with an error message, returns the invalid id `0`, and
performs no state mutation whatsoever (in particular `totalSubmitted` is
unchanged). -/
theorem submit_invalid_reference_rejected (env : Env) (s : ManagerState)
    (ref : WidgetRef) (cbC : CompletedCb) (rp dp : Bool) (z p : Int)
    (newId : Guid) (now : Nat) (hnull : ref.isNull = true) :
    LoadWidgetAsync env s ref cbC .user rp dp z p newId now =
      (s, [Event.onFailed 0 "Invalid widget class provided"], 0) := by
  simp [LoadWidgetAsync, hnull, invokeFailed]

/-- Witness for the null-reference rejection at a concrete input. -/
theorem submit_invalid_reference_rejected_witness :
    refNull.isNull = true ∧
      LoadWidgetAsync envA initialState refNull .user .user false false 0 0 9 0 =
        (initialState, [Event.onFailed 0 "Invalid widget class provided"], 0) :=
  ⟨by decide,
    submit_invalid_reference_rejected envA initialState refNull .user false false 0 0 9 0
      (by decide)⟩

/-- C2 (counterexample): the bound `|active| ≤ maxConcurrent` is violated in
a reachable state — three loads admitted under the default limit, then
`SetMaxConcurrentLoads(1)` lowers the limit without evicting anything. -/
theorem concurrency_bound_counterexample :
    Reach stateC2 ∧
      ¬ ((stateC2.ActiveRequests.length : Int) ≤ stateC2.MaxConcurrentLoads) := by
  constructor
  · show Reach (applyAction (applyAction (applyAction (applyAction initialState _) _) _) _)
    exact Reach.step _ _ (Reach.step _ _ (Reach.step _ _ (Reach.step _ _ Reach.init)))
  · decide

/-- C2 (amended): as long as the concurrency limit is never lowered below
the current number of active requests, every reachable state keeps
`|active| ≤ maxConcurrent` (the admission paths only start work in a
strictly free slot). -/
theorem concurrency_bound_without_shrinking (s : ManagerState) (h : ReachSafe s) :
    (s.ActiveRequests.length : Int) ≤ s.MaxConcurrentLoads :=
  (reachSafe_bound s h).2

/-- Witness for the concurrency bound along a concrete non-shrinking trace. -/
theorem concurrency_bound_without_shrinking_witness :
    ((applyAction (applyAction initialState
        (.submit envA refA .user .user false false 0 0 1 1))
        (.setMaxConcurrent envA 5)).ActiveRequests.length : Int) ≤
      (applyAction (applyAction initialState
        (.submit envA refA .user .user false false 0 0 1 1))
        (.setMaxConcurrent envA 5)).MaxConcurrentLoads :=
  concurrency_bound_without_shrinking _
    (ReachSafe.step _ _ (ReachSafe.step _ _ ReachSafe.init (by trivial))
      (by show ((applyAction initialState
            (.submit envA refA .user .user false false 0 0 1 1)).ActiveRequests.length : Int) ≤
          max 1 5
          decide))

/-- C7: every action that removes a request from the active set ends in a
state where the freed slot was put to use: the pending queue is empty, or
all slots are busy again, or a formerly pending request is now active. -/
theorem freed_slot_admits_next (s : ManagerState) (a : MgrAction)
    (hrem : ∃ g, g ∈ activeIds s ∧ g ∉ activeIds (applyAction s a)) :
    admitsNext s (applyAction s a) :=
  applyAction_admits s a hrem

/-- Witness for the freed-slot property: cancelling the only active request
of a concrete state. -/
theorem freed_slot_admits_next_witness :
    (∃ g, g ∈ activeIds stateC7 ∧
        g ∉ activeIds (applyAction stateC7 (.cancel envA 7))) ∧
      admitsNext stateC7 (applyAction stateC7 (.cancel envA 7)) :=
  ⟨by decide, freed_slot_admits_next stateC7 (.cancel envA 7) (by decide)⟩

/-- `ProcessNextRequest` never decreases the outcome counters. -/
theorem pnr_counts_mono (env : Env) (s : ManagerState) :
    s.FailedRequestCount ≤ (ProcessNextRequest env s).1.FailedRequestCount ∧
      s.CompletedRequestCount ≤ (ProcessNextRequest env s).1.CompletedRequestCount :=
  schedStep_counts_mono env _ s none

/-- C10: after a timeout terminates an active request, its id is recorded
in the cancelled-id set, so `GetRequestStatus` reports it as cancelled —
while the counters classify the event as a failure: the cancelled counter
is unchanged and the failed counter grew. -/
theorem timeout_reports_cancelled_status (env : Env) (s : ManagerState) (id : Guid)
    (req : FAsyncWidgetLoadRequest)
    (hfind : s.ActiveRequests.find? (fun r => decide (r.RequestId = id)) = some req) :
    GetRequestStatus (HandleLoadTimeout env s id).1 id =
        { found := true, bIsActive := false, bIsPending := false, bIsCancelled := true } ∧
      (HandleLoadTimeout env s id).1.CancelledRequestCount = s.CancelledRequestCount ∧
      s.FailedRequestCount + 1 ≤ (HandleLoadTimeout env s id).1.FailedRequestCount := by
  unfold HandleLoadTimeout
  simp only [hfind]
  have hch := cancelHandle_proj s id
  have hfp := pnr_framePres env
    { clearTimer (cancelHandle s id) id with
      CancelledRequestIds := idSetAdd (cancelHandle s id).CancelledRequestIds id,
      ActiveRequests := removeFirstReq (cancelHandle s id).ActiveRequests id,
      FailedRequestCount := (cancelHandle s id).FailedRequestCount + 1 }
  refine ⟨?_, ?_, ?_⟩
  · have hmem : id ∈ (ProcessNextRequest env
        { clearTimer (cancelHandle s id) id with
          CancelledRequestIds := idSetAdd (cancelHandle s id).CancelledRequestIds id,
          ActiveRequests := removeFirstReq (cancelHandle s id).ActiveRequests id,
          FailedRequestCount := (cancelHandle s id).FailedRequestCount + 1 }).1.CancelledRequestIds := by
      rw [(pnr_framePres env _).2.2.2.1]
      exact idSetAdd_mem _ id
    simp [GetRequestStatus, hmem]
  · rw [(pnr_framePres env _).2.2.1]
    exact hch.2.2.2.2.2.2.2.2.2.1
  · refine le_trans ?_ (pnr_counts_mono env _).1
    show s.FailedRequestCount + 1 ≤ (cancelHandle s id).FailedRequestCount + 1
    rw [hch.2.2.2.2.2.2.2.2.1]

/-- Witness for the timeout status report at a concrete input. -/
theorem timeout_reports_cancelled_status_witness :
    (stateT.ActiveRequests.find? (fun r => decide (r.RequestId = 5)) = some reqT) ∧
      (GetRequestStatus (HandleLoadTimeout envA stateT 5).1 5 =
          { found := true, bIsActive := false, bIsPending := false, bIsCancelled := true } ∧
        (HandleLoadTimeout envA stateT 5).1.CancelledRequestCount =
          stateT.CancelledRequestCount ∧
        stateT.FailedRequestCount + 1 ≤ (HandleLoadTimeout envA stateT 5).1.FailedRequestCount) :=
  ⟨by decide, timeout_reports_cancelled_status envA stateT 5 reqT (by decide)⟩

/-- Every event `ProcessNextRequest` emits concerns a request that was
pending at entry. -/
theorem pnr_events (env : Env) (s : ManagerState) :
    ∀ e ∈ (ProcessNextRequest env s).2, e.id ∈ pendingIds s := by
  intro e he
  rcases schedStep_events env _ s none e he with h | ⟨r, hr, -⟩
  · exact h
  · exact absurd hr (by simp)

/-- `ProcessNextRequest` consumes a front segment of the pending queue and
adds only formerly pending requests to the active set. -/
theorem pnr_origin (env : Env) (s : ManagerState) :
    ∃ k, (ProcessNextRequest env s).1.PendingRequests = s.PendingRequests.drop k ∧
      ∀ r ∈ (ProcessNextRequest env s).1.ActiveRequests,
        r ∈ s.ActiveRequests ∨ r ∈ s.PendingRequests.take k := by
  obtain ⟨k, h1, h2⟩ := schedStep_origin env _ s none
  refine ⟨k, h1, fun r hr => ?_⟩
  rcases h2 r hr with h | h | h
  · exact Or.inl h
  · exact Or.inr h
  · exact absurd h (by simp)

/-- C3: a timeout firing for a request still in the active set invokes the
bound failure delegate exactly once with the "Load timeout" reason and with
no other message, never invokes the completion delegate, removes the
request from the active set, increments the failed (not the cancelled)
counter, and then attempts to admit the next pending request — which is
admitted whenever it is uncancelled, uncached and its load starts. -/
theorem timeout_fails_exactly_once (env : Env) (s : ManagerState) (id : Guid)
    (req : FAsyncWidgetLoadRequest)
    (hfind : s.ActiveRequests.find? (fun r => decide (r.RequestId = id)) = some req)
    (hcb : req.OnLoadFailed = .user)
    (hcount : s.ActiveRequests.countP (fun r => decide (r.RequestId = id)) ≤ 1)
    (hpend : id ∉ pendingIds s) :
    ((HandleLoadTimeout env s id).2.count (Event.onFailed id "Load timeout") = 1) ∧
    (∀ m, m ≠ "Load timeout" → Event.onFailed id m ∉ (HandleLoadTimeout env s id).2) ∧
    (Event.onCompleted id ∉ (HandleLoadTimeout env s id).2) ∧
    id ∉ activeIds (HandleLoadTimeout env s id).1 ∧
    s.FailedRequestCount + 1 ≤ (HandleLoadTimeout env s id).1.FailedRequestCount ∧
    (HandleLoadTimeout env s id).1.CancelledRequestCount = s.CancelledRequestCount ∧
    admitsNext s (HandleLoadTimeout env s id).1 ∧
    (∀ r rest, s.PendingRequests = r :: rest → r.bCancelled = false →
      r.RequestId ∉ s.CancelledRequestIds →
      GetFromWidgetClassCache s r.WidgetClass = none →
      env.streamHandleValid r.WidgetClass = true →
      (s.ActiveRequests.length : Int) ≤ s.MaxConcurrentLoads →
      r ∈ (HandleLoadTimeout env s id).1.ActiveRequests) := by
  have hch := cancelHandle_proj s id
  unfold HandleLoadTimeout
  simp only [hfind, hcb]
  set S2 : ManagerState := { clearTimer (cancelHandle s id) id with
      CancelledRequestIds := idSetAdd (cancelHandle s id).CancelledRequestIds id,
      ActiveRequests := removeFirstReq (cancelHandle s id).ActiveRequests id,
      FailedRequestCount := (cancelHandle s id).FailedRequestCount + 1 } with hS2
  have hS2p : S2.PendingRequests = s.PendingRequests := by rw [hS2]; exact hch.2.1
  have hS2m : S2.MaxConcurrentLoads = s.MaxConcurrentLoads := by
    rw [hS2]; exact hch.2.2.2.2.1
  have hS2f : S2.FailedRequestCount = s.FailedRequestCount + 1 := by
    rw [hS2]
    show (cancelHandle s id).FailedRequestCount + 1 = s.FailedRequestCount + 1
    rw [hch.2.2.2.2.2.2.2.2.1]
  have hnotin : ∀ e ∈ (ProcessNextRequest env S2).2, e.id ≠ id := by
    intro e he
    have := pnr_events env S2 e he
    rw [pendingIds, hS2p] at this
    intro hcon
    rw [hcon] at this
    exact hpend this
  refine ⟨?_, ?_, ?_, ?_, ?_, ?_, ?_, ?_⟩
  · show ((Event.onFailed id "Load timeout" :: []) ++ (ProcessNextRequest env S2).2).count
      (Event.onFailed id "Load timeout") = 1
    rw [List.count_append]
    have h0 : ((ProcessNextRequest env S2).2).count (Event.onFailed id "Load timeout") = 0 := by
      rw [List.count_eq_zero]
      intro hmem
      exact hnotin _ hmem rfl
    rw [h0]
    simp
  · intro m hm
    show Event.onFailed id m ∉ (Event.onFailed id "Load timeout" :: []) ++ (ProcessNextRequest env S2).2
    simp only [List.mem_append, List.mem_singleton, not_or]
    constructor
    · intro hcon
      exact hm (by injection hcon)
    · intro hcon
      exact hnotin _ hcon rfl
  · show Event.onCompleted id ∉ (Event.onFailed id "Load timeout" :: []) ++ (ProcessNextRequest env S2).2
    simp only [List.mem_append, List.mem_singleton, not_or]
    exact ⟨by simp, fun hcon => hnotin _ hcon rfl⟩
  · obtain ⟨k, -, h2⟩ := pnr_origin env S2
    intro hmem
    rw [activeIds] at hmem
    obtain ⟨r, hr, hrid⟩ := List.mem_map.mp hmem
    rcases h2 r hr with h | h
    · rw [hS2] at h
      have hgone := removeFirstReq_id_gone (cancelHandle s id).ActiveRequests id
        (by rw [hch.1]; exact hcount) r h
      exact hgone hrid
    · rw [hS2p] at h
      apply hpend
      rw [pendingIds]
      rw [← hrid]
      exact List.mem_map_of_mem _ (List.take_subset k _ h)
  · rw [← hS2f]
    exact (pnr_counts_mono env S2).1
  · rw [(pnr_framePres env S2).2.2.1, hS2]
    exact hch.2.2.2.2.2.2.2.2.2.1
  · refine admitsNext_mono ?_ (pnr_drains env S2)
    intro r hr
    rwa [hS2p] at hr
  · intro r rest hp hbc hnc hcache hh hble
    have hfound := removeFirstReq_length_of_found (cancelHandle s id).ActiveRequests id req
      (by rw [hch.1]; exact hfind)
    have hrid : r.RequestId ≠ id := by
      intro hcon
      apply hpend
      rw [← hcon, pendingIds]
      exact List.mem_map_of_mem _ (by rw [hp]; exact List.mem_cons_self r rest)
    have hadm := pnr_admits_head env S2 r rest (by rw [hS2p, hp]) ?hlt hbc ?hc2 ?hcache hh
    · exact hadm.1
    case hcache =>
      rw [hS2]
      unfold GetFromWidgetClassCache at hcache ⊢
      simp only [clearTimer]
      rw [hch.2.2.2.2.2.2.2.2.2.2]
      exact hcache
    case hlt =>
      rw [hS2m, hS2]
      show ((removeFirstReq (cancelHandle s id).ActiveRequests id).length : Int) <
        s.MaxConcurrentLoads
      have hlen2 : (cancelHandle s id).ActiveRequests.length = s.ActiveRequests.length := by
        rw [hch.1]
      omega
    case hc2 =>
      rw [hS2]
      show r.RequestId ∉ idSetAdd (cancelHandle s id).CancelledRequestIds id
      rw [idSetAdd_mem_iff, hch.2.2.1]
      rintro (hcon | hcon)
      · exact hnc hcon
      · exact hrid hcon

/-- Witness for the timeout behaviour at a concrete input. -/
theorem timeout_fails_exactly_once_witness :
    (stateT.ActiveRequests.find? (fun r => decide (r.RequestId = 5)) = some reqT) ∧
      ((HandleLoadTimeout envA stateT 5).2.count (Event.onFailed 5 "Load timeout") = 1) ∧
      5 ∉ activeIds (HandleLoadTimeout envA stateT 5).1 ∧
      stateT.FailedRequestCount + 1 ≤ (HandleLoadTimeout envA stateT 5).1.FailedRequestCount ∧
      (HandleLoadTimeout envA stateT 5).1.CancelledRequestCount = stateT.CancelledRequestCount :=
  ⟨by decide,
    (timeout_fails_exactly_once envA stateT 5 reqT (by decide) (by decide) (by decide)
      (by decide)).1,
    (timeout_fails_exactly_once envA stateT 5 reqT (by decide) (by decide) (by decide)
      (by decide)).2.2.2.1,
    (timeout_fails_exactly_once envA stateT 5 reqT (by decide) (by decide) (by decide)
      (by decide)).2.2.2.2.1,
    (timeout_fails_exactly_once envA stateT 5 reqT (by decide) (by decide) (by decide)
      (by decide)).2.2.2.2.2.1⟩

/-- C5: once a request is recorded as cancelled (flag or id set), the
delivery of its load completion is discarded silently: no completion or
failure delegate fires for it, the loaded class is never exposed, the slot
is freed, and the scheduler moves on to pending work. -/
theorem cancelled_completion_suppressed (env : Env) (s : ManagerState)
    (req : FAsyncWidgetLoadRequest)
    (hc : req.bCancelled = true ∨ req.RequestId ∈ s.CancelledRequestIds)
    (hcount : s.ActiveRequests.countP (fun r => decide (r.RequestId = req.RequestId)) ≤ 1)
    (hpend : req.RequestId ∉ pendingIds s) :
    (Event.onCompleted req.RequestId ∉ (OnWidgetClassLoaded env s req).2) ∧
    (∀ m, Event.onFailed req.RequestId m ∉ (OnWidgetClassLoaded env s req).2) ∧
    req.RequestId ∉ activeIds (OnWidgetClassLoaded env s req).1 ∧
    admitsNext s (OnWidgetClassLoaded env s req).1 := by
  unfold OnWidgetClassLoaded
  have hcond : (req.bCancelled || decide (req.RequestId ∈
      (clearTimer (dropHandle s req.RequestId) req.RequestId).CancelledRequestIds)) = true := by
    rcases hc with h | h
    · simp [h]
    · simp only [clearTimer, dropHandle]
      simp [h]
  dsimp only
  rw [if_pos hcond]
  have hnotin : ∀ e ∈ (ProcessNextRequest env
      (dropActive (clearTimer (dropHandle s req.RequestId) req.RequestId) req.RequestId)).2,
      e.id ≠ req.RequestId := by
    intro e he
    have hmem := pnr_events env _ e he
    intro hcon
    apply hpend
    rw [← hcon]
    exact hmem
  refine ⟨?_, ?_, ?_, ?_⟩
  · intro hmem
    exact hnotin _ hmem rfl
  · intro m hmem
    exact hnotin _ hmem rfl
  · obtain ⟨k, -, h2⟩ := pnr_origin env
      (dropActive (clearTimer (dropHandle s req.RequestId) req.RequestId) req.RequestId)
    intro hmem
    obtain ⟨r, hr, hrid⟩ := List.mem_map.mp hmem
    rcases h2 r hr with h | h
    · have hgone : r.RequestId ≠ req.RequestId := by
        refine removeFirstReq_id_gone s.ActiveRequests req.RequestId hcount r ?_
        exact h
      exact hgone hrid
    · apply hpend
      rw [← hrid]
      exact List.mem_map_of_mem _ (List.take_subset k _ h)
  · exact admitsNext_mono (fun r hr => hr) (pnr_drains env _)

/-- Witness for the cancellation-race suppression at a concrete input. -/
theorem cancelled_completion_suppressed_witness :
    (reqC5.bCancelled = true ∨ reqC5.RequestId ∈ stateC5.CancelledRequestIds) ∧
      (Event.onCompleted reqC5.RequestId ∉ (OnWidgetClassLoaded envA stateC5 reqC5).2) ∧
      reqC5.RequestId ∉ activeIds (OnWidgetClassLoaded envA stateC5 reqC5).1 :=
  ⟨by decide,
    (cancelled_completion_suppressed envA stateC5 reqC5 (by decide) (by decide) (by decide)).1,
    (cancelled_completion_suppressed envA stateC5 reqC5 (by decide) (by decide)
      (by decide)).2.2.1⟩

/-- C4: among two pending requests where `a` strictly precedes `b` in the
scheduling order (higher priority, or equal priority and earlier
submission), `b` is never admitted while `a` is still pending: if an
admission round puts `b` into the active set, `a` is no longer pending. -/
theorem priority_admission_order (s : ManagerState) (env : Env)
    (a b : FAsyncWidgetLoadRequest) (hreach : Reach s)
    (ha : a ∈ s.PendingRequests) (hb : b ∈ s.PendingRequests)
    (hlt : reqLt a b = true) (hbact : b ∉ s.ActiveRequests) :
    b ∈ (ProcessNextRequest env s).1.ActiveRequests →
      a ∉ (ProcessNextRequest env s).1.PendingRequests := by
  have hsort := reach_sorted s hreach
  obtain ⟨k, h1, h2⟩ := pnr_origin env s
  intro hbmem hamem
  have hbtake : b ∈ s.PendingRequests.take k := by
    rcases h2 b hbmem with h | h
    · exact absurd h hbact
    · exact h
  have hadrop : a ∈ s.PendingRequests.drop k := by
    rw [h1] at hamem
    exact hamem
  have hrel : pendingOrder b a :=
    List.Sorted.rel_of_mem_take_of_mem_drop hsort hbtake hadrop
  unfold pendingOrder at hrel
  rw [hlt] at hrel
  exact absurd hrel (by simp)

/-- Witness for the priority-admission order on a concrete reachable state
with queued priorities 5 and 1. -/
theorem priority_admission_order_witness :
    (reqP5 ∈ stateC4.PendingRequests ∧ reqP4 ∈ stateC4.PendingRequests ∧
      reqLt reqP5 reqP4 = true ∧ reqP4 ∉ stateC4.ActiveRequests) ∧
      (reqP4 ∈ (ProcessNextRequest envA stateC4).1.ActiveRequests →
        reqP5 ∉ (ProcessNextRequest envA stateC4).1.PendingRequests) :=
  ⟨⟨by decide, by decide, by decide, by decide⟩,
    priority_admission_order stateC4 envA reqP5 reqP4
      (Reach.step _ _ (Reach.step _ _ (Reach.step _ _ (Reach.step _ _
        (Reach.step _ _ Reach.init)))))
      (by decide) (by decide) (by decide) (by decide)⟩

/-- C8 counterexample: with 101 distinct cancelled ids recorded oldest
first (`100` oldest, `0` newest), one cleanup pass does not prune back to
the cap of 100 but down to 50, and it keeps the oldest-recorded id `100`
while evicting the newest-recorded id `0`: eviction is by guid sort order,
not oldest-recorded-first. -/
theorem cancelled_ids_prune_counterexample :
    stateC8.CancelledRequestIds.length = 101 ∧
      (CleanupCompletedRequests stateC8).CancelledRequestIds.length = 50 ∧
      (100 : Guid) ∈ (CleanupCompletedRequests stateC8).CancelledRequestIds ∧
      (0 : Guid) ∉ (CleanupCompletedRequests stateC8).CancelledRequestIds := by
  decide

/-- The list computation at the core of the cleanup pass: filtering out the
`length - 50` smallest entries of a duplicate-free list longer than 100
leaves exactly 50 entries, and every surviving entry is strictly greater
than every evicted one. -/
theorem prune_keep_spec (l : List Nat) (hnd : l.Nodup) (hlen : 100 < l.length) :
    (l.filter (fun g => !decide (g ∈
        (List.insertionSort (fun a b => a ≤ b) l).take (l.length - 100 / 2)))).length = 50 ∧
      ∀ g ∈ l.filter (fun g => !decide (g ∈
          (List.insertionSort (fun a b => a ≤ b) l).take (l.length - 100 / 2))),
        ∀ g2 ∈ l, g2 ∉ l.filter (fun g => !decide (g ∈
          (List.insertionSort (fun a b => a ≤ b) l).take (l.length - 100 / 2))) →
          g2 < g := by
  have hperm : List.Perm (List.insertionSort (fun a b : Nat => a ≤ b) l) l :=
    List.perm_insertionSort _ l
  have hsortnd : (List.insertionSort (fun a b : Nat => a ≤ b) l).Nodup :=
    hperm.nodup_iff.mpr hnd
  have hsorted : List.Sorted (fun a b : Nat => a ≤ b)
      (List.insertionSort (fun a b : Nat => a ≤ b) l) :=
    List.sorted_insertionSort _ l
  set srt := List.insertionSort (fun a b : Nat => a ≤ b) l with hsrt
  set k := l.length - 100 / 2 with hk
  set rm := srt.take k with hrmdef
  set p := fun g : Nat => !decide (g ∈ rm) with hp
  have hsl : srt.length = l.length := hperm.length_eq
  have hdecomp : rm ++ srt.drop k = srt := List.take_append_drop k srt
  have hnd2 : (rm ++ srt.drop k).Nodup := by rw [hdecomp]; exact hsortnd
  have hdisj := (List.nodup_append.mp hnd2).2.2
  have hfperm : List.Perm (srt.filter p) (l.filter p) := hperm.filter p
  have hfsplit : srt.filter p = rm.filter p ++ (srt.drop k).filter p := by
    conv_lhs => rw [← hdecomp]
    exact List.filter_append _ _
  have hrm_nil : rm.filter p = [] := by
    rw [List.filter_eq_nil_iff]
    intro a ha
    simp [hp, ha]
  have hdrop_self : (srt.drop k).filter p = srt.drop k := by
    rw [List.filter_eq_self]
    intro a ha
    simp only [hp, Bool.not_eq_true']
    exact decide_eq_false (fun hcon => hdisj hcon ha)
  have hkept_perm : List.Perm (l.filter p) (srt.drop k) := by
    have h := hfperm.symm
    rw [hfsplit, hrm_nil, List.nil_append, hdrop_self] at h
    exact h
  refine ⟨?_, ?_⟩
  · rw [hkept_perm.length_eq, List.length_drop, hsl]
    omega
  · intro g hg g2 hg2 hg2n
    have hgdrop : g ∈ srt.drop k := hkept_perm.subset hg
    have hg2srt : g2 ∈ srt := hperm.mem_iff.mpr hg2
    have hg2rm : g2 ∈ rm := by
      rcases List.mem_append.mp (show g2 ∈ rm ++ srt.drop k by rw [hdecomp]; exact hg2srt)
        with h | h
      · exact h
      · exact absurd (hkept_perm.mem_iff.mpr h) hg2n
    have hle : g2 ≤ g :=
      List.Sorted.rel_of_mem_take_of_mem_drop hsorted hg2rm hgdrop
    have hne : g2 ≠ g := by
      intro hcon
      rw [hcon] at hg2rm
      exact hdisj hg2rm hgdrop
    exact lt_of_le_of_ne hle hne

/-- C8 (amended): once more than 100 cancelled ids are stored, the cleanup
pass prunes the set down to half the cap (50 entries, not 100), and the
evicted ids are those that sort lowest in guid order: every id kept is
strictly greater than every id evicted, regardless of recording age. -/
theorem cancelled_ids_prune_amended (s : ManagerState)
    (hnd : s.CancelledRequestIds.Nodup)
    (hlen : 100 < s.CancelledRequestIds.length) :
    (CleanupCompletedRequests s).CancelledRequestIds.length = 50 ∧
      ∀ g ∈ (CleanupCompletedRequests s).CancelledRequestIds,
        ∀ g2 ∈ s.CancelledRequestIds,
          g2 ∉ (CleanupCompletedRequests s).CancelledRequestIds → g2 < g := by
  have h := prune_keep_spec s.CancelledRequestIds hnd hlen
  simp only [CleanupCompletedRequests]
  rw [if_pos hlen]
  exact h

/-- Witness for the cleanup pruning at a concrete input. -/
theorem cancelled_ids_prune_amended_witness :
    (stateC8.CancelledRequestIds.Nodup ∧ 100 < stateC8.CancelledRequestIds.length) ∧
      (CleanupCompletedRequests stateC8).CancelledRequestIds.length = 50 :=
  ⟨⟨by decide, by decide⟩,
    (cancelled_ids_prune_amended stateC8 (by decide) (by decide)).1⟩

/-- C9 counterexample: a reference that is not currently resolved in memory
(`IsValid()` false) and not cached is rejected by `PreloadWidgetClass` with
the nil guid and no state change at all, although the claim admits only the
already-cached short circuit. -/
theorem preload_unresolved_counterexample :
    IsWidgetClassCached envB initialState refA = false ∧
      refA.isNull = false ∧
      PreloadWidgetClass envB initialState refA 0 9 0 = (initialState, [], 0) :=
  ⟨rfl, rfl, rfl⟩

/-- C9 (amended): when the soft pointer is currently resolved in memory and
the class is not yet cached, `PreloadWidgetClass` behaves exactly like
`LoadWidgetAsync` called with the cache-and-discard completion lambda and
the log-only failure lambda, and returns the fresh request id: the preload
goes through the same admission path (free slot or priority queue) as any
other submit. -/
theorem preload_submits_request (env : Env) (s : ManagerState) (ref : WidgetRef)
    (p : Int) (newId : Guid) (now : Nat)
    (hv : env.refValid ref = true)
    (hnc : IsWidgetClassCached env s ref = false)
    (hnn : ref.isNull = false) :
    PreloadWidgetClass env s ref p newId now =
      LoadWidgetAsync env s ref (.preloadCache ref) .preloadLog false false 0 p newId now ∧
      (PreloadWidgetClass env s ref p newId now).2.2 = newId := by
  have heq : PreloadWidgetClass env s ref p newId now =
      LoadWidgetAsync env s ref (.preloadCache ref) .preloadLog false false 0 p newId now := by
    unfold PreloadWidgetClass LoadWidgetAsync
    rw [hv, hnn]
    simp only [Bool.not_true, Bool.false_eq_true, if_false, hnc]
  refine ⟨heq, ?_⟩
  rw [heq]
  unfold LoadWidgetAsync
  rw [hnn]
  simp only [Bool.false_eq_true, if_false]
  by_cases hlt : ((s.ActiveRequests.length : Int) <
      ({ s with TotalRequestCount := s.TotalRequestCount + 1 }).MaxConcurrentLoads)
  · simp only [if_pos hlt]
  · simp only [if_neg hlt]

/-- Witness for the preload/submit agreement at a concrete input. -/
theorem preload_submits_request_witness :
    (envA.refValid refA = true ∧ IsWidgetClassCached envA initialState refA = false ∧
      refA.isNull = false) ∧
      PreloadWidgetClass envA initialState refA 0 9 0 =
        LoadWidgetAsync envA initialState refA (.preloadCache refA) .preloadLog
          false false 0 0 9 0 :=
  ⟨⟨rfl, rfl, rfl⟩,
    (preload_submits_request envA initialState refA 0 9 0 rfl rfl rfl).1⟩

/-- `StartLoadingWidget` on a cache hit: the admitted request is completed
synchronously from the cache (completion delegate and counter on factory
success, failure delegate and counter on factory failure), removed from the
active set again, and never queued. -/
theorem slw_cache_hit (env : Env) (s : ManagerState) (req : FAsyncWidgetLoadRequest)
    (c : ClassId) (base : List FAsyncWidgetLoadRequest)
    (hc : GetFromWidgetClassCache s req.WidgetClass = some c)
    (hcb : req.OnLoadCompleted = .user) (hcbf : req.OnLoadFailed = .user)
    (hact : s.ActiveRequests = base ++ [req])
    (hbase : ∀ x ∈ base, x.RequestId ≠ req.RequestId)
    (hpend : req.RequestId ∉ pendingIds s) :
    (∀ w, CreateAndSetupWidget env (some c) req = some w →
      Event.onCompleted req.RequestId ∈ (StartLoadingWidget env s req).2 ∧
      s.CompletedRequestCount + 1 ≤
        (StartLoadingWidget env s req).1.CompletedRequestCount) ∧
    (CreateAndSetupWidget env (some c) req = none →
      Event.onFailed req.RequestId "Failed to create widget from cached class" ∈
        (StartLoadingWidget env s req).2 ∧
      s.FailedRequestCount + 1 ≤ (StartLoadingWidget env s req).1.FailedRequestCount) ∧
    req.RequestId ∉ activeIds (StartLoadingWidget env s req).1 ∧
    req.RequestId ∉ pendingIds (StartLoadingWidget env s req).1 := by
  unfold StartLoadingWidget
  rw [show 2 * s.PendingRequests.length + 2 = (2 * s.PendingRequests.length + 1) + 1 from rfl]
  rw [schedStep_some_hit env _ s req c hc]
  dsimp only
  have hproj := completeFromCache_proj env s req c
  have hmidact : (dropActive (completeFromCache env s req c).1 req.RequestId).ActiveRequests
      = base := by
    simp only [dropActive, hproj.1, hact]
    exact removeFirstReq_append_singleton base req req.RequestId hbase rfl
  have hmidpend : (dropActive (completeFromCache env s req c).1 req.RequestId).PendingRequests
      = s.PendingRequests := by
    simp only [dropActive, hproj.2.1]
  obtain ⟨k, h1, h2⟩ := schedStep_origin env (2 * s.PendingRequests.length + 1)
    (dropActive (completeFromCache env s req c).1 req.RequestId) none
  refine ⟨?_, ?_, ?_, ?_⟩
  · intro w hw
    have hout : completeFromCache env s req c =
        ({ s with CompletedRequestCount := s.CompletedRequestCount + 1 },
         [Event.onCompleted req.RequestId]) := by
      unfold completeFromCache
      rw [hw, hcb]
      rfl
    constructor
    · rw [hout]
      exact List.mem_append_left _ (List.mem_singleton_self _)
    · rw [hout]
      have hm := (schedStep_counts_mono env (2 * s.PendingRequests.length + 1)
        (dropActive { s with CompletedRequestCount := s.CompletedRequestCount + 1 }
          req.RequestId) none).2
      simp only [dropActive] at hm ⊢
      exact hm
  · intro hw
    have hout : completeFromCache env s req c =
        ({ s with FailedRequestCount := s.FailedRequestCount + 1 },
         [Event.onFailed req.RequestId "Failed to create widget from cached class"]) := by
      unfold completeFromCache
      rw [hw, hcbf]
      rfl
    constructor
    · rw [hout]
      exact List.mem_append_left _ (List.mem_singleton_self _)
    · rw [hout]
      have hm := (schedStep_counts_mono env (2 * s.PendingRequests.length + 1)
        (dropActive { s with FailedRequestCount := s.FailedRequestCount + 1 }
          req.RequestId) none).1
      simp only [dropActive] at hm ⊢
      exact hm
  · intro hmem
    obtain ⟨r, hr, hrid⟩ := List.mem_map.mp hmem
    rcases h2 r hr with h | h | h
    · rw [hmidact] at h
      exact hbase r h hrid
    · rw [hmidpend] at h
      exact hpend (hrid ▸ List.mem_map_of_mem _ (List.take_subset k _ h))
    · exact absurd h (by simp)
  · intro hmem
    obtain ⟨r, hr, hrid⟩ := List.mem_map.mp hmem
    rw [h1, hmidpend] at hr
    exact hpend (hrid ▸ List.mem_map_of_mem _ (List.drop_subset k _ hr))

/-- C1 (amended): a cache hit is honoured by the load started after
admission, not by the submit call itself.  When a slot is free, submitting
a reference whose class is cached completes synchronously within the call:
the submit returns the fresh id, the request occupies no slot and is never
queued afterwards, and depending on the view factory outcome either the
completion delegate fired and the completed counter grew, or the failure
delegate fired with the cached-class failure message and the failed counter
grew. -/
theorem cache_hit_completes_when_slot_free (env : Env) (s : ManagerState)
    (ref : WidgetRef) (priority : Int) (newId : Guid) (now : Nat) (c : ClassId)
    (hnn : ref.isNull = false)
    (hc : GetFromWidgetClassCache s ref = some c)
    (hfree : (s.ActiveRequests.length : Int) < s.MaxConcurrentLoads)
    (hnidp : newId ∉ pendingIds s) (hnida : newId ∉ activeIds s) :
    (LoadWidgetAsync env s ref .user .user false false 0 priority newId now).2.2 = newId ∧
    newId ∉ activeIds (LoadWidgetAsync env s ref .user .user false false 0 priority newId now).1 ∧
    newId ∉ pendingIds (LoadWidgetAsync env s ref .user .user false false 0 priority newId now).1 ∧
    (∀ w, CreateAndSetupWidget env (some c)
        (mkRequest ref .user .user false false 0 priority newId now) = some w →
      Event.onCompleted newId ∈
        (LoadWidgetAsync env s ref .user .user false false 0 priority newId now).2.1 ∧
      s.CompletedRequestCount + 1 ≤
        (LoadWidgetAsync env s ref .user .user false false 0 priority newId
          now).1.CompletedRequestCount) ∧
    (CreateAndSetupWidget env (some c)
        (mkRequest ref .user .user false false 0 priority newId now) = none →
      Event.onFailed newId "Failed to create widget from cached class" ∈
        (LoadWidgetAsync env s ref .user .user false false 0 priority newId now).2.1 ∧
      s.FailedRequestCount + 1 ≤
        (LoadWidgetAsync env s ref .user .user false false 0 priority newId
          now).1.FailedRequestCount) := by
  have hmain := slw_cache_hit env
    { s with TotalRequestCount := s.TotalRequestCount + 1,
             ActiveRequests := s.ActiveRequests ++
               [mkRequest ref .user .user false false 0 priority newId now] }
    (mkRequest ref .user .user false false 0 priority newId now) c s.ActiveRequests
    hc rfl rfl rfl
    (by
      intro x hx hcon
      apply hnida
      rw [show (mkRequest ref CompletedCb.user FailedCb.user false false 0 priority newId
        now).RequestId = newId from rfl] at hcon
      exact hcon ▸ List.mem_map_of_mem _ hx)
    hnidp
  have hLWA : LoadWidgetAsync env s ref .user .user false false 0 priority newId now =
      ((StartLoadingWidget env
          { s with TotalRequestCount := s.TotalRequestCount + 1,
                   ActiveRequests := s.ActiveRequests ++
                     [mkRequest ref .user .user false false 0 priority newId now] }
          (mkRequest ref .user .user false false 0 priority newId now)).1,
       (StartLoadingWidget env
          { s with TotalRequestCount := s.TotalRequestCount + 1,
                   ActiveRequests := s.ActiveRequests ++
                     [mkRequest ref .user .user false false 0 priority newId now] }
          (mkRequest ref .user .user false false 0 priority newId now)).2,
       newId) := by
    simp only [LoadWidgetAsync]
    rw [hnn]
    simp only [Bool.false_eq_true, if_false]
    rw [if_pos hfree]
    rfl
  rw [hLWA]
  exact ⟨rfl, hmain.2.2.1, hmain.2.2.2, hmain.1, hmain.2.1⟩

/-- C1 counterexample: in the reachable state with the class of `refA`
cached and the single slot occupied, submitting `refA` again fires no
delegate within the call and queues the new request: the cache hit did not
complete synchronously and the queue was touched. -/
theorem cache_hit_queues_counterexample :
    Reach stateC1 ∧
      (cacheFind stateC1.WidgetClassCache refA).isSome = true ∧
      (LoadWidgetAsync envA stateC1 refA .user .user false false 0 0 13 3).2.1 = [] ∧
      (13 : Guid) ∈ pendingIds
        (LoadWidgetAsync envA stateC1 refA .user .user false false 0 0 13 3).1 :=
  ⟨Reach.step _ _ (Reach.step _ _ (Reach.step _ _ (Reach.step _ _ Reach.init))),
    by decide, by decide, by decide⟩

/-- Witness for the synchronous cache-hit completion at a concrete input. -/
theorem cache_hit_completes_when_slot_free_witness :
    (refA.isNull = false ∧ GetFromWidgetClassCache stateC1b refA = some 1 ∧
      ((stateC1b.ActiveRequests.length : Int) < stateC1b.MaxConcurrentLoads) ∧
      (13 : Guid) ∉ pendingIds stateC1b ∧ (13 : Guid) ∉ activeIds stateC1b ∧
      CreateAndSetupWidget envA (some 1)
        (mkRequest refA .user .user false false 0 0 13 3) = some ⟨1⟩) ∧
      (LoadWidgetAsync envA stateC1b refA .user .user false false 0 0 13 3).2.2 = 13 ∧
      Event.onCompleted 13 ∈
        (LoadWidgetAsync envA stateC1b refA .user .user false false 0 0 13 3).2.1 :=
  ⟨⟨by decide, by decide, by decide, by decide, by decide, by decide⟩,
    (cache_hit_completes_when_slot_free envA stateC1b refA 0 13 3 1 (by decide) (by decide)
      (by decide) (by decide) (by decide)).1,
    ((cache_hit_completes_when_slot_free envA stateC1b refA 0 13 3 1 (by decide) (by decide)
      (by decide) (by decide) (by decide)).2.2.2.1 ⟨1⟩ (by decide)).1⟩
